import Mathlib

/-!
Verification development for the schema-mapper repository.

This file gives a shallow embedding of the parts of the code base that the
verified properties talk about:

* `src/agents/data_cleaner_agent.py`  (Stack A deterministic cleaner)
* `src/agents/llm_fix_agent.py`       (Stack A validator / fix generator / learned-fix store)
* `src/agents/schema_mapper_agent.py` (Stack A column mapper)
* `src/backend/services/schema_mapper.py` (Stack B column mapper)
* `src/agents/data_processing_graph.py`   (Stack A orchestrator routing)
* `src/utils/data_utils.py`           (session persistence round trip)

Cell values are modelled by the inductive type `Value` (pandas cells of the
shapes the pipeline produces: the NaN absent-value sentinel, strings, Python
floats as exact rationals, Python ints).  Python floats are modelled as
rationals; every float literal and every arithmetic step appearing in the
embedded code paths is exactly representable, so the rational model agrees
with IEEE evaluation on all inputs used in the theorems below.  Fallible
Python operations (`float(...)`, `int(...)`) are modelled as `Option`
parsers, and `try/except` blocks as the corresponding `Option`/`Except`
eliminations.
-/

namespace SchemaMapperRepo

/-- Cell values of the modelled pandas frames: the absent-value sentinel
(`NaN`/`None`), strings, Python floats (as exact rationals), Python ints. -/
inductive Value where
  | nan : Value
  | str : String → Value
  | num : ℚ → Value
  | int : Int → Value
deriving DecidableEq

/-- Strip ASCII whitespace from both ends of a character list (the
whitespace stripping of Python `float`/`int`/`str.strip`). -/
def stripWsL (cs : List Char) : List Char :=
  ((cs.dropWhile Char.isWhitespace).reverse.dropWhile Char.isWhitespace).reverse

/-- Python `s.replace(ch, "")` for a single character: drop every
occurrence. -/
def removeAll (s : String) (c : Char) : String :=
  ⟨s.toList.filter (fun x => x != c)⟩

/-- ASCII lower-casing of a string (Python `str.lower` on the ASCII inputs
exercised here). -/
def pyLower (s : String) : String := ⟨s.toList.map Char.toLower⟩

/-- ASCII upper-casing of a string (Python `str.upper` on the ASCII inputs
exercised here). -/
def pyUpper (s : String) : String := ⟨s.toList.map Char.toUpper⟩

/-- Split a character list at every occurrence of a separator, keeping
empty pieces (Python `str.split(sep)` / `String.splitOn` semantics for a
one-character separator). -/
def splitOnCharL (sep : Char) (cs : List Char) : List (List Char) :=
  cs.foldr
    (fun c acc =>
      if c == sep then [] :: acc
      else
        match acc with
        | h :: t => (c :: h) :: t
        | [] => [[c]])
    [[]]

/-- First-occurrence deduplication of a word list (Python `set` membership
order is irrelevant to the counts used below). -/
def dedupAux (seen : List String) : List String → List String
  | [] => []
  | w :: ws => if seen.contains w then dedupAux seen ws else w :: dedupAux (w :: seen) ws

/-- Floor of a rational as an integer (`Int.fdiv` is floor division). -/
def ratFloorZ (q : ℚ) : Int := Int.fdiv q.num (q.den : Int)

/-- Digits of a natural number, as characters (helper for decimal printing). -/
def natDigits (n : ℕ) : String := toString n

/-- Fractional digits of a rational in `[0,1)` with a terminating decimal
expansion; `none` when the expansion does not terminate within the fuel
(never the case for values produced by the embedded code). -/
def fracDigitsAux : ℕ → ℚ → Option String
  | 0, _ => none
  | fuel + 1, frac =>
    let d : ℕ := (ratFloorZ (frac * 10)).toNat
    let rest : ℚ := frac * 10 - (ratFloorZ (frac * 10) : ℚ)
    if rest = 0 then some (natDigits d)
    else (fracDigitsAux fuel rest).map (fun s => natDigits d ++ s)

/-- Python `str` of a non-negative float, for floats whose value has a
terminating decimal expansion (all floats produced by the embedded
normalizers): integral values print with a trailing `.0`, as Python does. -/
def floatStrNonneg (q : ℚ) : String :=
  let ip : ℕ := (ratFloorZ q).toNat
  let frac : ℚ := q - (ratFloorZ q : ℚ)
  if frac = 0 then natDigits ip ++ ".0"
  else
    match fracDigitsAux 40 frac with
    | some ds => natDigits ip ++ "." ++ ds
    | none => natDigits ip ++ ".?"

/-- Python `str` of a float (rational model). -/
def floatStr (q : ℚ) : String :=
  if q < 0 then "-" ++ floatStrNonneg (-q) else floatStrNonneg q

/-- Python `str(value)` for the modelled cell values.  `str(nan)` is `"nan"`. -/
def pyStr : Value → String
  | .nan => "nan"
  | .str s => s
  | .num q => floatStr q
  | .int n => toString n

/-- Numeric value of a list of decimal digit characters. -/
def natFromDigits (cs : List Char) : ℕ :=
  cs.foldl (fun a c => a * 10 + (c.toNat - 48)) 0

/-- Parser for the unsigned decimal forms accepted by Python `float`:
`digits`, `digits.digits`, `digits.`, `.digits` (the exponent and
`inf`/`nan` forms are outside the value space exercised here). -/
def parseUnsignedDec (cs : List Char) : Option ℚ :=
  let intPart := cs.takeWhile Char.isDigit
  let rest := cs.dropWhile Char.isDigit
  match rest with
  | [] => if intPart.isEmpty then none else some (natFromDigits intPart : ℚ)
  | '.' :: fs =>
    if fs.all Char.isDigit && (!intPart.isEmpty || !fs.isEmpty) then
      some ((natFromDigits intPart : ℚ) + (natFromDigits fs : ℚ) / (10 : ℚ) ^ fs.length)
    else none
  | _ => none

/-- Python `float(s)`: strips surrounding whitespace, allows an optional
sign, then a decimal literal; `none` models the raised `ValueError`. -/
def pyFloat (s : String) : Option ℚ :=
  match stripWsL s.toList with
  | '+' :: rest => parseUnsignedDec rest
  | '-' :: rest => (parseUnsignedDec rest).map Neg.neg
  | cs => parseUnsignedDec cs

/-- Python `int(s)`: strips surrounding whitespace, optional sign, one or
more decimal digits; `none` models the raised `ValueError`. -/
def pyInt (s : String) : Option Int :=
  let core := fun (cs : List Char) =>
    if !cs.isEmpty && cs.all Char.isDigit then some ((natFromDigits cs : ℕ) : Int) else none
  match stripWsL s.toList with
  | '+' :: rest => core rest
  | '-' :: rest => (core rest).map Neg.neg
  | cs => core cs

/-- Python `str.isdigit()` restricted to ASCII: nonempty and all digits. -/
def pyIsdigit (s : String) : Bool :=
  !s.toList.isEmpty && s.toList.all Char.isDigit

/-- Truncation toward zero, as Python `int(float_value)` does. -/
def ratTrunc (q : ℚ) : Int := q.num / (q.den : Int)

/-- ASCII upper-case letter test (the `[A-Z]` regex class). -/
def isUpperAZ (c : Char) : Bool := 'A' ≤ c && c ≤ 'Z'

/-- ASCII letter test (the `[a-zA-Z]` regex class). -/
def isAlphaAscii (c : Char) : Bool := ('A' ≤ c && c ≤ 'Z') || ('a' ≤ c && c ≤ 'z')

/-- The regex `^ORD-\d+$` / `^CUST-\d+$` shape: a literal head followed by
one or more digits. -/
def matchHeadDigits (head s : String) : Bool :=
  head.toList.isPrefixOf s.toList && !(s.toList.drop head.toList.length).isEmpty &&
    (s.toList.drop head.toList.length).all Char.isDigit

/-- The regex `^\+91-\d{10}$`: the literal `+91-` followed by exactly ten
digits filling the rest of the string. -/
def phoneRe (s : String) : Bool :=
  "+91-".toList.isPrefixOf s.toList && (s.toList.drop 4).length == 10 &&
    (s.toList.drop 4).all Char.isDigit

/-- The regex `^[\d,]+\.?\d*$` used to detect currency-shaped values: one or
more digits/commas, an optional dot, then any number of digits. -/
def currencyRe (s : String) : Bool :=
  let cls := fun (c : Char) => c.isDigit || c == ','
  let hd := s.toList.takeWhile cls
  let tl := s.toList.dropWhile cls
  !hd.isEmpty &&
    (match tl with
     | [] => true
     | '.' :: ds => ds.all Char.isDigit
     | _ => false)

/-- The regex `^[\d.]+%?$` used to detect percentage-shaped values: one or
more digits/dots, optionally ending in a percent sign. -/
def percentRe (s : String) : Bool :=
  let cs := s.toList
  let core := if cs.getLast? == some '%' then cs.dropLast else cs
  !core.isEmpty && core.all (fun c => c.isDigit || c == '.')

/-- The regex `^\d{6}$`: exactly six digits. -/
def sixDigitsRe (s : String) : Bool :=
  s.toList.length == 6 && s.toList.all Char.isDigit

/-- The email regex `^[a-zA-Z0-9._%+-]+@[a-zA-Z0-9.-]+\.[a-zA-Z]{2,}$`:
character classes of the local and domain parts. -/
def emailLocalChar (c : Char) : Bool :=
  isAlphaAscii c || c.isDigit || c == '.' || c == '_' || c == '%' || c == '+' || c == '-'

/-- Domain-part character class of the email regex. -/
def emailDomChar (c : Char) : Bool :=
  isAlphaAscii c || c.isDigit || c == '.' || c == '-'

/-- Full-string match of the email regex: exactly one `@` (neither class
contains it), a nonempty local part, and a domain whose final dot-separated
segment is at least two ASCII letters.  Because the top-level domain class
excludes dots, only the last dot of the domain can serve as the literal
`\.`, so the greedy/backtracking regex semantics coincide with this check. -/
def emailRe (s : String) : Bool :=
  match splitOnCharL '@' s.toList with
  | [loc, dom] =>
    let rev := dom.reverse
    let tldR := rev.takeWhile (fun c => c ≠ '.')
    let mid := (rev.drop (tldR.length + 1)).reverse
    !loc.isEmpty && loc.all emailLocalChar &&
      (rev.drop tldR.length).head? == some '.' && !mid.isEmpty &&
      mid.all emailDomChar && tldR.length ≥ 2 && tldR.all isAlphaAscii
  | _ => false

/-- The GSTIN regex `^\d{2}[A-Z]{5}\d{4}[A-Z]{1}[A-Z\d]{1}[Z]{1}[A-Z\d]{1}$`. -/
def gstinRe (s : String) : Bool :=
  let cs := s.toList
  let alnum := fun (c : Char) => isUpperAZ c || c.isDigit
  cs.length == 15 &&
    (cs.take 2).all Char.isDigit &&
    ((cs.drop 2).take 5).all isUpperAZ &&
    ((cs.drop 7).take 4).all Char.isDigit &&
    ((cs.drop 11).take 1).all isUpperAZ &&
    ((cs.drop 12).take 1).all alnum &&
    (cs.drop 13).take 1 == ['Z'] &&
    ((cs.drop 14).take 1).all alnum

/-- Month abbreviations recognized by the `%b` directive (matched
case-insensitively, as `strptime` does). -/
def monthAbbrevs : List String :=
  ["jan", "feb", "mar", "apr", "may", "jun", "jul", "aug", "sep", "oct", "nov", "dec"]

/-- Days in a month, with the Gregorian leap-year rule (as enforced by
`datetime` construction inside `strptime`). -/
def daysInMonth (m y : ℕ) : ℕ :=
  if m = 2 then (if y % 4 = 0 && (y % 100 ≠ 0 || y % 400 = 0) then 29 else 28)
  else if m = 4 || m = 6 || m = 9 || m = 11 then 30
  else 31

/-- A 1-2 digit numeric field with value in `[lo, hi]` (the `%d`/`%m`
directives). -/
def parseField2 (s : String) (lo hi : ℕ) : Option ℕ :=
  let cs := s.toList
  if (cs.length == 1 || cs.length == 2) && cs.all Char.isDigit then
    let n := natFromDigits cs
    if lo ≤ n && n ≤ hi then some n else none
  else none

/-- A 4-digit year field (the `%Y` directive). -/
def parseField4 (s : String) : Option ℕ :=
  let cs := s.toList
  if cs.length == 4 && cs.all Char.isDigit then some (natFromDigits cs) else none

/-- Index of a month abbreviation in the `%b` table. -/
def monthIdxAux (s : String) : List String → ℕ → Option ℕ
  | [], _ => none
  | m :: ms, i => if m == s then some i else monthIdxAux s ms (i + 1)

/-- A month-abbreviation field (the `%b` directive), case-insensitive. -/
def parseMonthAbbrev (s : String) : Option ℕ :=
  (monthIdxAux (pyLower s) monthAbbrevs 0).map (· + 1)

/-- The four `strptime` format strings used by the cleaner. -/
inductive DateFmt where
  | ymdDash
  | dmySlash
  | dmyDash
  | dbyDash
deriving DecidableEq

/-- Model of `datetime.strptime(s, fmt)` for the cleaner's format strings:
the string splits at the format's separator into exactly the expected
fields, each field parses under its directive, and the day is valid for the
month/year; `none` models the raised `ValueError`. -/
def parseDateFmt (fmt : DateFmt) (s : String) : Option (ℕ × ℕ × ℕ) :=
  let check := fun (y m d : ℕ) => if 1 ≤ d && d ≤ daysInMonth m y then some (y, m, d) else none
  match fmt with
  | .ymdDash =>
    match splitOnCharL '-' s.toList with
    | [ys, ms, ds] =>
      do check (← parseField4 ⟨ys⟩) (← parseField2 ⟨ms⟩ 1 12) (← parseField2 ⟨ds⟩ 1 31)
    | _ => none
  | .dmySlash =>
    match splitOnCharL '/' s.toList with
    | [ds, ms, ys] =>
      do check (← parseField4 ⟨ys⟩) (← parseField2 ⟨ms⟩ 1 12) (← parseField2 ⟨ds⟩ 1 31)
    | _ => none
  | .dmyDash =>
    match splitOnCharL '-' s.toList with
    | [ds, ms, ys] =>
      do check (← parseField4 ⟨ys⟩) (← parseField2 ⟨ms⟩ 1 12) (← parseField2 ⟨ds⟩ 1 31)
    | _ => none
  | .dbyDash =>
    match splitOnCharL '-' s.toList with
    | [ds, bs, ys] =>
      do check (← parseField4 ⟨ys⟩) (← parseMonthAbbrev ⟨bs⟩) (← parseField2 ⟨ds⟩ 1 31)
    | _ => none

/-- `DataCleanerAgent._is_valid_date_format`: the value parses under at
least one of the four formats (the source lists each twice; duplicates do
not change the disjunction). -/
def isValidDateFormat (s : String) : Bool :=
  [DateFmt.ymdDash, .dmySlash, .dmyDash, .dbyDash].any (fun f => (parseDateFmt f s).isSome)

/-- Left-pad a numeral with zeros (for `strftime` zero-padded fields). -/
def padZeros (width n : ℕ) : String :=
  let s := toString n
  ⟨List.replicate (width - s.length) '0'⟩ ++ s

/-- Helper of `_normalize_date`: first format that parses. -/
def tryDateFmts (s : String) : List DateFmt → Option (ℕ × ℕ × ℕ)
  | [] => none
  | f :: fs =>
    match parseDateFmt f s with
    | some ymd => some ymd
    | none => tryDateFmts s fs

/-- `DataCleanerAgent._normalize_date`: try `%d/%m/%Y`, `%d-%m-%Y`,
`%d-%b-%Y`, `%Y-%m-%d` in order; reformat the first success to ISO
`%Y-%m-%d`; otherwise return the input unchanged. -/
def normalizeDate (s : String) : String :=
  match tryDateFmts s [DateFmt.dmySlash, .dmyDash, .dbyDash, .ymdDash] with
  | some (y, m, d) => padZeros 4 y ++ "-" ++ padZeros 2 m ++ "-" ++ padZeros 2 d
  | none => s

/-- `re.sub(r'[,\s₹$]', '', value)`: drop commas, whitespace, `₹`, `$`. -/
def stripCurrencySyms (s : String) : String :=
  ⟨s.toList.filter (fun c => !(c == ',' || c.isWhitespace || c == '₹' || c == '$'))⟩

/-- `re.sub(r'[,\s]', '', value)`: drop commas and whitespace. -/
def stripCommaWs (s : String) : String :=
  ⟨s.toList.filter (fun c => !(c == ',' || c.isWhitespace))⟩

/-- `DataCleanerAgent._normalize_currency` body: strip commas, whitespace
and currency symbols, then `float(...)`; `none` models the `ValueError`
raised on a non-numeric remainder. -/
def normalizeCurrency (s : String) : Option ℚ :=
  pyFloat (stripCurrencySyms s)

/-- `DataCleanerAgent._normalize_percentage` body: strip `%`, `float(...)`,
divide by 100 when the parsed value is strictly greater than 1. -/
def normalizePercentage (s : String) : Option ℚ :=
  (pyFloat (removeAll s '%')).map (fun p => if 1 < p then p / 100 else p)

/-- `DataCleanerAgent._normalize_phone`: keep only digits; exactly ten
digits reformat to `+91-<digits>`, anything else is returned unchanged. -/
def normalizePhone (s : String) : String :=
  let ds := s.toList.filter Char.isDigit
  if ds.length == 10 then "+91-" ++ ⟨ds⟩ else s

/-- `DataCleanerAgent._normalize_numeric` body: strip commas/whitespace,
`int(float(...))` truncating toward zero; `none` models the `ValueError`. -/
def normalizeNumeric (s : String) : Option Int :=
  (pyFloat (stripCommaWs s)).map ratTrunc

/-- The `rule_type` discriminator of `CleaningRule`. -/
inductive RuleType where
  | format
  | dateFormat
  | emailFormat
  | phoneFormat
  | numeric
  | currency
  | percentage
  | currencyCode
  | gstinFormat
deriving DecidableEq

/-- The Python `rule_type` string of each rule kind. -/
def ruleTypeStr : RuleType → String
  | .format => "format"
  | .dateFormat => "date_format"
  | .emailFormat => "email_format"
  | .phoneFormat => "phone_format"
  | .numeric => "numeric"
  | .currency => "currency"
  | .percentage => "percentage"
  | .currencyCode => "currency_code"
  | .gstinFormat => "gstin_format"

/-- `CleaningRule` dataclass (the validator field is engaged only through
the rule table and is not consulted by `_apply_rule`, so it is omitted). -/
structure CleaningRule where
  column : String
  ruleType : RuleType
  pattern : String
  replacement : String
deriving DecidableEq

/-- Dispatcher for `re.match(pattern, s)` over the finitely many pattern
literals appearing in the rule table and validators, each translated to a
full-string predicate above. -/
def reMatch (pattern s : String) : Bool :=
  if pattern == "^ORD-\\d+$" then matchHeadDigits "ORD-" s
  else if pattern == "^CUST-\\d+$" then matchHeadDigits "CUST-" s
  else if pattern == "^[a-zA-Z0-9._%+-]+@[a-zA-Z0-9.-]+\\.[a-zA-Z]{2,}$" then emailRe s
  else if pattern == "^\\+91-\\d{10}$" then phoneRe s
  else if pattern == "^\\d+$" then pyIsdigit s
  else if pattern == "^[\\d,]+\\.?\\d*$" then currencyRe s
  else if pattern == "^(INR|₹|Rs|inr)$" then s == "INR" || s == "₹" || s == "Rs" || s == "inr"
  else if pattern == "^[\\d.]+%?$" then percentRe s
  else if pattern == "^\\d{2}[A-Z]{5}\\d{4}[A-Z]{1}[A-Z\\d]{1}[Z]{1}[A-Z\\d]{1}$" then gstinRe s
  else if pattern == "^\\d{6}$" then sixDigitsRe s
  else false

/-- The rule table built by `DataCleanerAgent._initialize_cleaning_rules`,
as a function from column name to its rule list (`dict.get(column, [])`). -/
def cleaningRules (column : String) : List CleaningRule :=
  if column == "order_id" then
    [⟨"order_id", .format, "^ORD-\\d+$", "ORD-{id}"⟩]
  else if column == "order_date" then
    [⟨"order_date", .dateFormat, "\\d{4}-\\d{2}-\\d{2}", "{date}"⟩,
     ⟨"order_date", .dateFormat, "\\d{2}/\\d{2}/\\d{4}", "{date}"⟩,
     ⟨"order_date", .dateFormat, "\\d{2}-\\w{3}-\\d{4}", "{date}"⟩]
  else if column == "customer_id" then
    [⟨"customer_id", .format, "^CUST-\\d+$", "CUST-{id}"⟩]
  else if column == "email" then
    [⟨"email", .emailFormat, "^[a-zA-Z0-9._%+-]+@[a-zA-Z0-9.-]+\\.[a-zA-Z]{2,}$", "{email}"⟩]
  else if column == "phone" then
    [⟨"phone", .phoneFormat, "^\\+91-\\d{10}$", "+91-{phone}"⟩]
  else if column == "postal_code" then
    [⟨"postal_code", .numeric, "^\\d+$", "{code}"⟩]
  else if column == "quantity" then
    [⟨"quantity", .numeric, "^\\d+$", "{qty}"⟩]
  else if column == "unit_price" then
    [⟨"unit_price", .currency, "^[\\d,]+\\.?\\d*$", "{price}"⟩]
  else if column == "currency" then
    [⟨"currency", .currencyCode, "^(INR|₹|Rs|inr)$", "INR"⟩]
  else if column == "discount_pct" then
    [⟨"discount_pct", .percentage, "^[\\d.]+%?$", "{pct}"⟩]
  else if column == "tax_pct" then
    [⟨"tax_pct", .percentage, "^[\\d.]+%?$", "{pct}"⟩]
  else if column == "shipping_fee" then
    [⟨"shipping_fee", .currency, "^[\\d,]+\\.?\\d*$", "{fee}"⟩]
  else if column == "total_amount" then
    [⟨"total_amount", .currency, "^[\\d,]+\\.?\\d*$", "{amount}"⟩]
  else if column == "tax_id" then
    [⟨"tax_id", .gstinFormat, "^\\d{2}[A-Z]{5}\\d{4}[A-Z]{1}[A-Z\\d]{1}[Z]{1}[A-Z\\d]{1}$", "{gstin}"⟩]
  else []

/-- `DataCleanerAgent._apply_rule`: rule detection by `rule_type` (the
enclosing `try/except` returns `False`; no detection branch can raise on
the modelled value shapes, see `applyRuleE`). -/
def applyRule (v : Value) (r : CleaningRule) : Bool :=
  match r.ruleType with
  | .format => reMatch r.pattern (pyStr v)
  | .dateFormat => isValidDateFormat (pyStr v)
  | .emailFormat => reMatch r.pattern (pyStr v)
  | .phoneFormat => reMatch r.pattern (pyStr v)
  | .numeric => pyIsdigit (removeAll (removeAll (pyStr v) ',') '.')
  | .currency => reMatch r.pattern (pyStr v)
  | .percentage => reMatch r.pattern (pyStr v)
  | .currencyCode => ["INR", "₹", "RS", "INR"].contains (pyUpper (pyStr v))
  | .gstinFormat => reMatch r.pattern (pyStr v)

/-- The body of `_apply_rule` without its `except` handler: `Except.error`
marks a raise.  On the modelled value shapes every detection branch is
total, so every branch returns `Except.ok`. -/
def applyRuleE (v : Value) (r : CleaningRule) : Except Unit Bool :=
  match r.ruleType with
  | .format => .ok (reMatch r.pattern (pyStr v))
  | .dateFormat => .ok (isValidDateFormat (pyStr v))
  | .emailFormat => .ok (reMatch r.pattern (pyStr v))
  | .phoneFormat => .ok (reMatch r.pattern (pyStr v))
  | .numeric => .ok (pyIsdigit (removeAll (removeAll (pyStr v) ',') '.'))
  | .currency => .ok (reMatch r.pattern (pyStr v))
  | .percentage => .ok (reMatch r.pattern (pyStr v))
  | .currencyCode => .ok (["INR", "₹", "RS", "INR"].contains (pyUpper (pyStr v)))
  | .gstinFormat => .ok (reMatch r.pattern (pyStr v))

/-- `DataCleanerAgent._transform_value`: transformation by `rule_type`,
with the enclosing `try/except` returning the original value; the fallible
`float`/`int` parses appear as `Option` eliminations whose `none` branch
returns the original value. -/
def transformValue (v : Value) (rt : RuleType) : Value :=
  match rt with
  | .dateFormat => .str (normalizeDate (pyStr v))
  | .currency =>
    match normalizeCurrency (pyStr v) with
    | some q => .num q
    | none => v
  | .percentage =>
    match normalizePercentage (pyStr v) with
    | some q => .num q
    | none => v
  | .currencyCode => .str "INR"
  | .phoneFormat => .str (normalizePhone (pyStr v))
  | .numeric =>
    match normalizeNumeric (pyStr v) with
    | some n => .int n
    | none => v
  | _ => v

/-- The body of `_transform_value` without its `except` handler:
`Except.error` marks the `ValueError` raised by a failing `float`/`int`
parse. -/
def transformValueE (v : Value) (rt : RuleType) : Except Unit Value :=
  match rt with
  | .dateFormat => .ok (.str (normalizeDate (pyStr v)))
  | .currency =>
    match normalizeCurrency (pyStr v) with
    | some q => .ok (.num q)
    | none => .error ()
  | .percentage =>
    match normalizePercentage (pyStr v) with
    | some q => .ok (.num q)
    | none => .error ()
  | .currencyCode => .ok (.str "INR")
  | .phoneFormat => .ok (.str (normalizePhone (pyStr v)))
  | .numeric =>
    match normalizeNumeric (pyStr v) with
    | some n => .ok (.int n)
    | none => .error ()
  | _ => .ok v

/-- `pd.isna(value)` on the modelled cells. -/
def isNA : Value → Bool
  | .nan => true
  | _ => false

/-- Pandas `==` comparison on cells: NaN compares unequal to everything
(including NaN); numbers compare by value across int/float. -/
def pdEq : Value → Value → Bool
  | .nan, _ => false
  | _, .nan => false
  | .str a, .str b => a == b
  | .num a, .num b => a == b
  | .int a, .int b => a == b
  | .num a, .int b => a == (b : ℚ)
  | .int a, .num b => (a : ℚ) == b
  | _, _ => false

/-- Identity of cells as `Series.unique` groups them: one NaN bucket, and
value equality elsewhere. -/
def sameCell (a b : Value) : Bool :=
  (isNA a && isNA b) || pdEq a b

/-- First-occurrence deduplication (`Series.unique` keeps order of first
appearance). -/
def pdUniqueAux : List Value → List Value → List Value
  | _, [] => []
  | seen, v :: vs =>
    if seen.any (fun w => sameCell w v) then pdUniqueAux seen vs
    else v :: pdUniqueAux (v :: seen) vs

/-- `Series.unique()` on the modelled cells. -/
def pdUnique (vs : List Value) : List Value := pdUniqueAux [] vs

/-- `CleaningResult` dataclass. -/
structure CleaningResult where
  column : String
  originalValue : Value
  cleanedValue : Value
  ruleApplied : String
  confidence : ℚ
deriving DecidableEq

/-- `DataCleanerAgent._clean_column`: for every distinct non-absent value,
apply the first matching rule and record one result with confidence 0.9;
values matching no rule produce no record. -/
def cleanColumn (values : List Value) (col : String) : List CleaningResult :=
  (pdUnique values).filterMap fun v =>
    if isNA v then none
    else
      match (cleaningRules col).find? (fun r => applyRule v r) with
      | some r => some ⟨col, v, transformValue v r.ruleType, ruleTypeStr r.ruleType, 9 / 10⟩
      | none => none

/-- The per-column write-back loop of `clean_data`: each recorded result is
broadcast to every row whose current value equals the recorded original
value (pandas `==` semantics, so absent cells are never overwritten). -/
def applyResults (values : List Value) (rs : List CleaningResult) : List Value :=
  rs.foldl
    (fun acc r => acc.map (fun v => if pdEq v r.originalValue then r.cleanedValue else v))
    values

/-- A dataframe: ordered columns, each a name with its cell list. -/
abbrev DF : Type := List (String × List Value)

/-- The column-rename loop of `clean_data` over the supplied mappings. -/
def renameColumns (df : DF) (mappings : List (String × String)) : DF :=
  mappings.foldl
    (fun acc st =>
      if acc.any (fun c => c.1 == st.1) then
        acc.map (fun c => if c.1 == st.1 then (st.2, c.2) else c)
      else acc)
    df

/-- `DataCleanerAgent.clean_data`: rename columns per the mappings, then
clean every column that has a rule list, collecting all results. -/
def cleanData (df : DF) (mappings : List (String × String)) : DF × List CleaningResult :=
  let renamed := renameColumns df mappings
  renamed.foldl
    (fun st c =>
      if (cleaningRules c.1).isEmpty then (st.1 ++ [c], st.2)
      else
        let results := cleanColumn c.2 c.1
        (st.1 ++ [(c.1, applyResults c.2 results)], st.2 ++ results))
    (([], []) : DF × List CleaningResult)

/-- The `{valid, error_type, message}` record returned by the validators in
`llm_fix_agent.py`. -/
structure VRes where
  valid : Bool
  errorType : String
  message : String
deriving DecidableEq

/-- `LLMFixAgent._validate_order_id`. -/
def vOrderId (s : String) : VRes :=
  if !matchHeadDigits "ORD-" s then ⟨false, "format", "Order ID must be in format ORD-XXXX"⟩
  else ⟨true, "", ""⟩

/-- `LLMFixAgent._validate_date`: must parse as `%Y-%m-%d` exactly. -/
def vDate (s : String) : VRes :=
  if (parseDateFmt .ymdDash s).isSome then ⟨true, "", ""⟩
  else ⟨false, "format", "Date must be in YYYY-MM-DD format"⟩

/-- `LLMFixAgent._validate_customer_id`. -/
def vCustomerId (s : String) : VRes :=
  if !matchHeadDigits "CUST-" s then ⟨false, "format", "Customer ID must be in format CUST-XXXX"⟩
  else ⟨true, "", ""⟩

/-- `LLMFixAgent._validate_email`. -/
def vEmail (s : String) : VRes :=
  if !emailRe s then ⟨false, "format", "Invalid email format"⟩ else ⟨true, "", ""⟩

/-- `LLMFixAgent._validate_phone`: strict `^\+91-\d{10}$` check. -/
def vPhone (s : String) : VRes :=
  if !phoneRe s then ⟨false, "format", "Phone must be in format +91-XXXXXXXXXX"⟩
  else ⟨true, "", ""⟩

/-- `LLMFixAgent._validate_postal_code`: exactly six digits. -/
def vPostalCode (s : String) : VRes :=
  if !sixDigitsRe s then ⟨false, "format", "Postal code must be 6 digits"⟩ else ⟨true, "", ""⟩

/-- `LLMFixAgent._validate_quantity`: `int(value)` must succeed and be
positive. -/
def vQuantity (s : String) : VRes :=
  match pyInt s with
  | some q => if q ≤ 0 then ⟨false, "range", "Quantity must be positive"⟩ else ⟨true, "", ""⟩
  | none => ⟨false, "format", "Quantity must be a number"⟩

/-- `LLMFixAgent._validate_price`: `float(value)` must succeed and be
non-negative. -/
def vPrice (s : String) : VRes :=
  match pyFloat s with
  | some p => if p < 0 then ⟨false, "range", "Price cannot be negative"⟩ else ⟨true, "", ""⟩
  | none => ⟨false, "format", "Price must be a number"⟩

/-- `LLMFixAgent._validate_currency`. -/
def vCurrency (s : String) : VRes :=
  if !(["INR", "₹", "RS"].contains (pyUpper s)) then
    ⟨false, "value", "Currency must be INR, ₹, or Rs"⟩
  else ⟨true, "", ""⟩

/-- `LLMFixAgent._validate_percentage`: `float(value)` must succeed and lie
in `[0, 1]`. -/
def vPercentage (s : String) : VRes :=
  match pyFloat s with
  | some p =>
    if !(0 ≤ p && p ≤ 1) then ⟨false, "range", "Percentage must be between 0 and 1"⟩
    else ⟨true, "", ""⟩
  | none => ⟨false, "format", "Percentage must be a number"⟩

/-- `LLMFixAgent._validate_gstin`. -/
def vGstin (s : String) : VRes :=
  if !gstinRe s then ⟨false, "format", "Invalid GSTIN format"⟩ else ⟨true, "", ""⟩

/-- `LLMFixAgent._validate_value`: dispatch over the per-column validator
table; columns with no registered validator are always valid. -/
def validateValue (v : Value) (col : String) : VRes :=
  let s := pyStr v
  if col == "order_id" then vOrderId s
  else if col == "order_date" then vDate s
  else if col == "customer_id" then vCustomerId s
  else if col == "email" then vEmail s
  else if col == "phone" then vPhone s
  else if col == "postal_code" then vPostalCode s
  else if col == "quantity" then vQuantity s
  else if col == "unit_price" then vPrice s
  else if col == "currency" then vCurrency s
  else if col == "discount_pct" then vPercentage s
  else if col == "tax_pct" then vPercentage s
  else if col == "shipping_fee" then vPrice s
  else if col == "total_amount" then vPrice s
  else if col == "tax_id" then vGstin s
  else ⟨true, "unknown", ""⟩

/-- One entry of the validation-error list built by `_validate_column`. -/
structure VErr where
  column : String
  rowIndex : ℕ
  value : Value
  errorType : String
  message : String
deriving DecidableEq

/-- `LLMFixAgent._validate_column`: iterate the series with its index,
skip absent cells, and record an error for each invalid value. -/
def validateColumn (series : List (ℕ × Value)) (col : String) : List VErr :=
  series.filterMap fun iv =>
    if isNA iv.2 then none
    else
      let r := validateValue iv.2 col
      if r.valid then none else some ⟨col, iv.1, iv.2, r.errorType, r.message⟩

/-- `LLMFixAgent.validate_data_quality`: validate every dataframe column
that belongs to the canonical schema (given here by its key list). -/
def validateDataQuality (schema : List String) (df : DF) : List VErr :=
  df.foldl
    (fun acc c => if schema.contains c.1 then acc ++ validateColumn c.2.enum c.1 else acc)
    []

/-- `FixSuggestion` dataclass. -/
structure FixSuggestion where
  column : String
  rowIndex : ℕ
  originalValue : Value
  suggestedValue : Value
  reason : String
  confidence : ℚ
  fixType : String
deriving DecidableEq

/-- One learned-fix record as stored by `promote_fix`. -/
structure LearnedFix where
  suggestedValue : Value
  reason : String
  confidence : ℚ
  usageCount : ℕ
deriving DecidableEq

/-- The in-memory learned-fix store: an insertion-ordered string-keyed
dictionary, modelled as an association list with unique keys. -/
abbrev LearnedStore : Type := List (String × LearnedFix)

/-- `LLMFixAgent._check_learned_fixes`: dictionary lookup under the key
`f"{column}_{error_type}_{str(value)}"`. -/
def checkLearnedFixes (store : LearnedStore) (column : String) (value : Value)
    (errorType : String) : Option LearnedFix :=
  (store.find? (fun kv => kv.1 == column ++ "_" ++ errorType ++ "_" ++ pyStr value)).map (·.2)

/-- The reply of `_generate_llm_fix` when the hosted-model call succeeds
and parses. -/
structure LlmFix where
  suggestedValue : String
  reason : String
  confidence : ℚ
deriving DecidableEq

/-- The hosted-model boundary (`_generate_llm_fix`): an oracle from
`(column, value, error_type)` to an optional parsed reply; `none` covers
request failures and unparseable replies. -/
abbrev LlmOracle : Type := String → Value → String → Option LlmFix

/-- `LLMFixAgent._generate_single_fix`: prefer a learned fix (fix_type
`learned`, reason prefixed `Learned fix: `, stored confidence); otherwise
consult the model oracle (fix_type `llm`); otherwise no suggestion. -/
def generateSingleFix (store : LearnedStore) (llm : LlmOracle) (column : String)
    (value : Value) (errorType : String) (rowIndex : ℕ) : Option FixSuggestion :=
  match checkLearnedFixes store column value errorType with
  | some lf =>
    some ⟨column, rowIndex, value, lf.suggestedValue, "Learned fix: " ++ lf.reason,
      lf.confidence, "learned"⟩
  | none =>
    match llm column value errorType with
    | some g => some ⟨column, rowIndex, value, .str g.suggestedValue, g.reason, g.confidence, "llm"⟩
    | none => none

/-- `LLMFixAgent.generate_fix_suggestions`: one suggestion attempt per
validation error whose column belongs to the canonical schema. -/
def generateFixSuggestions (schema : List String) (store : LearnedStore) (llm : LlmOracle)
    (validationErrors : List VErr) : List FixSuggestion :=
  validationErrors.filterMap fun e =>
    if schema.contains e.column then
      generateSingleFix store llm e.column e.value e.errorType e.rowIndex
    else none

/-- Dictionary upsert: overwrite in place if the key exists, else append
(Python dict assignment preserves insertion order). -/
def dictSet (store : LearnedStore) (key : String) (lf : LearnedFix) : LearnedStore :=
  if store.any (fun kv => kv.1 == key) then
    store.map (fun kv => if kv.1 == key then (key, lf) else kv)
  else store ++ [(key, lf)]

/-- `LLMFixAgent.promote_fix`: upsert under the key
`f"{column}_{original_value}"`, incrementing the previous `usage_count`
(0 when absent). -/
def promoteFix (store : LearnedStore) (fs : FixSuggestion) : LearnedStore :=
  let key := fs.column ++ "_" ++ pyStr fs.originalValue
  let prev := (((store.find? (fun kv => kv.1 == key)).map (·.2.usageCount)).getD 0)
  dictSet store key ⟨fs.suggestedValue, fs.reason, fs.confidence, prev + 1⟩

/-- `MappingResult` dataclass of the Stack A mapper. -/
structure MappingResult where
  sourceColumn : String
  targetColumn : String
  confidence : ℚ
  mappingType : String
deriving DecidableEq

/-- Python `source_column.lower().strip()`. -/
def pyLowerStrip (s : String) : String := ⟨stripWsL (s.toList.map Char.toLower)⟩

/-- Python substring containment `needle in hay`. -/
def strContains (hay needle : String) : Bool :=
  hay.toList.tails.any (fun t => needle.toList.isPrefixOf t)

/-- Python `s.split()`: split on whitespace runs, dropping empty pieces. -/
def splitWsPy (s : String) : List String :=
  (((s.toList.foldr
      (fun c acc =>
        if c.isWhitespace then [] :: acc
        else
          match acc with
          | h :: t => (c :: h) :: t
          | [] => [[c]])
      [[]]).map (fun cs => (⟨cs⟩ : String))).filter (fun w => w != ""))

/-- Python `set(s.split())`, as a deduplicated word list. -/
def wordSet (s : String) : List String := dedupAux [] (splitWsPy s)

/-- The `mapping_patterns` keyword table of `SchemaMapperAgent`, in
declaration order. -/
def mappingPatterns : List (String × List String) :=
  [("order_id", ["order", "id", "reference", "ord", "ref"]),
   ("order_date", ["date", "ordered", "created", "timestamp"]),
   ("customer_id", ["customer", "client", "cust", "user"]),
   ("customer_name", ["name", "customer", "client", "fullname"]),
   ("email", ["email", "e-mail", "mail", "contact"]),
   ("phone", ["phone", "mobile", "tel", "contact"]),
   ("billing_address", ["bill", "billing", "address"]),
   ("shipping_address", ["ship", "shipping", "delivery"]),
   ("city", ["city", "town", "municipality"]),
   ("state", ["state", "province", "region"]),
   ("postal_code", ["postal", "zip", "pin", "code"]),
   ("country", ["country", "nation", "region"]),
   ("product_sku", ["sku", "code", "product", "item"]),
   ("product_name", ["product", "item", "name", "desc"]),
   ("category", ["cat", "category", "type"]),
   ("subcategory", ["sub", "subcat", "subcategory"]),
   ("quantity", ["qty", "quantity", "units", "amount"]),
   ("unit_price", ["price", "unit", "cost", "rate"]),
   ("currency", ["currency", "curr", "symbol"]),
   ("discount_pct", ["discount", "disc", "off"]),
   ("tax_pct", ["tax", "gst", "vat", "rate"]),
   ("shipping_fee", ["shipping", "ship", "logistics", "fee"]),
   ("total_amount", ["total", "grand", "sum", "amount"]),
   ("tax_id", ["tax", "gstin", "vat", "reg", "registration"])]

/-- The exact-match stage of `SchemaMapperAgent._find_best_match`: the first
canonical column whose keyword list contains the lowered source name or
whose own name equals it. -/
def exactMatchA (srcLower : String) : Option String :=
  (mappingPatterns.find? (fun cp => cp.2.contains srcLower || srcLower == cp.1)).map (·.1)

/-- One `(canonical, keyword)` step of `SchemaMapperAgent._fuzzy_match`:
substring-containment score then word-overlap score, each replacing the
best on a strictly greater score. -/
def fuzzyStepPat (src : String) (st : Option String × ℚ) (col pat : String) :
    Option String × ℚ :=
  let st1 :=
    if strContains src pat || strContains pat src then
      let score : ℚ := (pat.length : ℚ) / (max src.length pat.length : ℚ)
      if score > st.2 then (some col, score) else st
    else st
  let sw := wordSet src
  let pw := wordSet pat
  let overlap := (sw.filter (fun w => pw.contains w)).length
  if overlap > 0 then
    let score : ℚ := (overlap : ℚ) / (max sw.length pw.length : ℚ)
    if score > st1.2 then (some col, score) else st1
  else st1

/-- `SchemaMapperAgent._fuzzy_match`: best `(match, score)` over the whole
keyword table, `(none, 0)` when nothing scores. -/
def fuzzyMatchA (src : String) : Option String × ℚ :=
  mappingPatterns.foldl
    (fun st cp => cp.2.foldl (fun st2 pat => fuzzyStepPat src st2 cp.1 pat) st)
    ((none : Option String), (0 : ℚ))

/-- The hosted-model boundary of `SchemaMapperAgent._semantic_match`: an
oracle returning the parsed `(column, confidence)` reply; `none` covers
request failures, unparseable replies, and the `(None, 0)` fall-through. -/
abbrev SemOracle : Type := String → Option (String × ℚ)

/-- The semantic stage of `_find_best_match`: accept the oracle's answer
only above confidence `0.6`. -/
def semanticStage (sem : SemOracle) (src : String) : Option MappingResult :=
  match sem src with
  | some (c, conf) => if conf > 3 / 5 then some ⟨src, c, conf, "semantic"⟩ else none
  | none => none

/-- `SchemaMapperAgent._find_best_match`: exact, then fuzzy gated strictly
above `0.7`, then semantic gated strictly above `0.6`. -/
def findBestMatchA (sem : SemOracle) (src : String) : Option MappingResult :=
  let srcLower := pyLowerStrip src
  match exactMatchA srcLower with
  | some c => some ⟨src, c, 1, "exact"⟩
  | none =>
    match fuzzyMatchA srcLower with
    | (some c, s) => if s > 7 / 10 then some ⟨src, c, s, "fuzzy"⟩ else semanticStage sem src
    | (none, _) => semanticStage sem src

/-- `SchemaMapperAgent.map_columns`. -/
def mapColumnsA (sem : SemOracle) (sourceColumns : List String) : List MappingResult :=
  sourceColumns.filterMap (findBestMatchA sem)

/-- `SchemaMapperAgent.get_unmapped_columns`. -/
def getUnmappedColumns (sourceColumns : List String) (mappings : List MappingResult) :
    List String :=
  sourceColumns.filter (fun c => !(mappings.any (fun m => m.sourceColumn == c)))

/-- The `synonym_mappings` table of the Stack B `SchemaMapper`. -/
def synonymMappings : List (String × List String) :=
  [("customer_id", ["cust_id", "client_id", "id", "customer_number", "client_number"]),
   ("customer_name", ["customer name", "full_name", "full name", "name", "client_name",
                      "client name"]),
   ("email", ["email address", "email_addr", "e_mail", "email_addr"]),
   ("phone", ["phone number", "contact_phone", "contact phone", "telephone", "tel"]),
   ("address", ["street address", "street_addr", "address_line", "street"]),
   ("city", ["city name", "town", "municipality"]),
   ("state", ["state code", "region", "province", "state_province"]),
   ("postal_code", ["zip code", "zip", "postal", "postcode"]),
   ("country", ["country code", "country_name", "nation"]),
   ("registration_date", ["reg date", "reg_date", "date_registered", "signup_date"]),
   ("tax_id", ["tax identification", "vat_number", "vat number", "tax_number", "reg no"]),
   ("annual_revenue", ["revenue", "annual_revenue", "yearly_revenue", "income"]),
   ("industry", ["industry type", "industry_sector", "sector", "business_type"]),
   ("employee_count", ["emp count", "emp_count", "staff_count", "staff count", "employees"]),
   ("status", ["customer status", "client_status", "client status", "active_status"])]

/-- Synonyms declared for a canonical column (`[]` when the column has no
entry, matching the `in`-guarded loop). -/
def synonymsOf (c : String) : List String :=
  (((synonymMappings.find? (fun kv => kv.1 == c)).map (·.2)).getD [])

/-- Length of the common run of equal characters starting at positions
`i`/`j`, limited to `ahi`/`bhi` (fuel-indexed helper for the
`SequenceMatcher` model). -/
def runLenF : ℕ → List Char → List Char → ℕ → ℕ → ℕ → ℕ → ℕ
  | 0, _, _, _, _, _, _ => 0
  | fuel + 1, a, b, i, j, ahi, bhi =>
    if i < ahi && j < bhi && (a.get? i).isSome && a.get? i == b.get? j then
      1 + runLenF fuel a b (i + 1) (j + 1) ahi bhi
    else 0

/-- `difflib.SequenceMatcher.find_longest_match` without junk handling (no
input here reaches the autojunk length 200): among maximal matching blocks,
the one starting earliest in `a`, then earliest in `b`. -/
def findLongestMatch (a b : List Char) (alo ahi blo bhi : ℕ) : ℕ × ℕ × ℕ :=
  (List.range (ahi - alo)).foldl
    (fun best di =>
      let i := alo + di
      (List.range (bhi - blo)).foldl
        (fun best2 dj =>
          let j := blo + dj
          let k := runLenF (ahi - i) a b i j ahi bhi
          if k > best2.2.2 then (i, j, k) else best2)
        best)
    (alo, blo, 0)

/-- Total size of all matching blocks (`get_matching_blocks`), recursing on
both sides of the longest block; the fuel strictly exceeds the maximal
recursion depth `(ahi - alo) + (bhi - blo)`. -/
def matchTotalF : ℕ → List Char → List Char → ℕ → ℕ → ℕ → ℕ → ℕ
  | 0, _, _, _, _, _, _ => 0
  | fuel + 1, a, b, alo, ahi, blo, bhi =>
    let ijk := findLongestMatch a b alo ahi blo bhi
    if ijk.2.2 = 0 then 0
    else
      matchTotalF fuel a b alo ijk.1 blo ijk.2.1 + ijk.2.2 +
        matchTotalF fuel a b (ijk.1 + ijk.2.2) ahi (ijk.2.1 + ijk.2.2) bhi

/-- Total matched character count of `SequenceMatcher(None, a, b)`. -/
def matchTotal (a b : List Char) : ℕ :=
  matchTotalF (a.length + b.length + 1) a b 0 a.length 0 b.length

/-- `SequenceMatcher.ratio()`: `2 * M / T` with `T` the summed lengths
(`1.0` for two empty strings). -/
def diffScore (a b : String) : ℚ :=
  let la := a.toList.length
  let lb := b.toList.length
  if la + lb = 0 then 1 else 2 * (matchTotal a.toList b.toList : ℚ) / ((la + lb : ℕ) : ℚ)

/-- Python `round` to an integer: round-half-to-even. -/
def pyRoundHalfEven (q : ℚ) : Int :=
  let f := ratFloorZ q
  let r := q - (f : ℚ)
  if r < 1 / 2 then f
  else if 1 / 2 < r then f + 1
  else if f % 2 = 0 then f else f + 1

/-- `fuzzywuzzy.fuzz.ratio`: the `SequenceMatcher` score scaled to 0-100
and rounded to an int (the pure-Python difflib backend). -/
def fuzzScore (a b : String) : ℕ :=
  (pyRoundHalfEven (100 * diffScore a b)).toNat

/-- The exact stage of the Stack B `SchemaMapper._find_best_match`. -/
def exactStageB (srcLower : String) (canonicalColumns : List String) : Option String :=
  canonicalColumns.find? (fun c => srcLower == pyLower c)

/-- The synonym stage of the Stack B `SchemaMapper._find_best_match`. -/
def synonymStageB (srcLower : String) (canonicalColumns : List String) : Option String :=
  canonicalColumns.findSome? fun c =>
    ((synonymsOf c).find? (fun syn => srcLower == pyLower syn)).map (fun _ => c)

/-- The fuzzy stage of the Stack B `SchemaMapper._find_best_match`: per
canonical column the maximum of the direct `fuzz.ratio` and every synonym
`fuzz.ratio`; the best strictly-improving column wins; the score is then
scaled to `[0, 1]`. -/
def fuzzyStageB (srcLower : String) (canonicalColumns : List String) : Option String × ℚ :=
  let best :=
    canonicalColumns.foldl
      (fun st c =>
        let direct := fuzzScore srcLower (pyLower c)
        let score :=
          (synonymsOf c).foldl (fun sc syn => max sc (fuzzScore srcLower (pyLower syn))) direct
        if score > st.2 then (some c, score) else st)
      ((none : Option String), (0 : ℕ))
  (best.1, (best.2 : ℚ) / 100)

/-- Stack B `SchemaMapper._find_best_match`: exact (confidence 1.0), then
synonym (confidence 0.9), then fuzzy. -/
def findBestMatchB (sourceCol : String) (canonicalColumns : List String) :
    Option String × ℚ :=
  let srcLower := pyLowerStrip sourceCol
  match exactStageB srcLower canonicalColumns with
  | some c => (some c, 1)
  | none =>
    match synonymStageB srcLower canonicalColumns with
    | some c => (some c, 9 / 10)
    | none => fuzzyStageB srcLower canonicalColumns

/-- The result record of Stack B `SchemaMapper.map_columns` (mapping values
are `Option` because the fuzzy stage can score an empty canonical list). -/
structure MapColsResultB where
  mapping : List (String × Option String)
  confidenceScores : List (String × ℚ)
  unmappedColumns : List String
  extraColumns : List String
deriving DecidableEq

/-- Stack B `SchemaMapper.map_columns`: custom mappings first (confidence
1.0, consuming the column), then the per-column best match gated at
`>= 0.4` (`fuzzy_low`), then the unreferenced canonical columns. -/
def mapColumnsB (sourceColumns canonicalColumns : List String)
    (custom : List (String × String)) : MapColsResultB :=
  let afterCustom :=
    custom.foldl
      (fun (st : List (String × Option String) × List (String × ℚ) × List String) kv =>
        if st.2.2.contains kv.1 && canonicalColumns.contains kv.2 then
          (st.1 ++ [(kv.1, some kv.2)], st.2.1 ++ [(kv.1, 1)],
            st.2.2.filter (fun c => c != kv.1))
        else st)
      (([], [], sourceColumns) : List (String × Option String) × List (String × ℚ) × List String)
  let afterRest :=
    afterCustom.2.2.foldl
      (fun (st : List (String × Option String) × List (String × ℚ) × List String) col =>
        let bm := findBestMatchB col canonicalColumns
        if bm.2 ≥ 2 / 5 then
          (st.1 ++ [(col, bm.1)], st.2.1 ++ [(col, bm.2)], st.2.2)
        else (st.1, st.2.1, st.2.2 ++ [col]))
      ((afterCustom.1, afterCustom.2.1, []) :
        List (String × Option String) × List (String × ℚ) × List String)
  { mapping := afterRest.1
    confidenceScores := afterRest.2.1
    unmappedColumns := afterRest.2.2
    extraColumns :=
      canonicalColumns.filter (fun c => !(afterRest.1.any (fun kv => kv.2 == some c))) }

/-- The slice of `DataProcessingState` read by the router after
`generate_fixes`. -/
structure GraphState where
  unmappedColumns : List String
  manualMappings : List (String × String)
  fixSuggestions : List FixSuggestion
deriving DecidableEq

/-- `DataProcessingGraph._should_apply_manual_mappings`: the three-way label
decision (Python truthiness of the list/dict fields). -/
def shouldApplyManualMappings (st : GraphState) : String :=
  if !st.unmappedColumns.isEmpty && st.manualMappings.isEmpty then "manual_mapping"
  else if !st.fixSuggestions.isEmpty then "apply_fixes"
  else "finalize"

/-- The unconditional edges added by `_build_graph` (END is the LangGraph
terminal). -/
def staticEdges : List (String × String) :=
  [("map_columns", "clean_data"),
   ("clean_data", "validate_data"),
   ("validate_data", "generate_fixes"),
   ("apply_manual_mappings", "apply_fixes"),
   ("apply_fixes", "finalize_output"),
   ("finalize_output", "END")]

/-- The node carrying the only conditional edge set. -/
def conditionalEdgeSource : String := "generate_fixes"

/-- The label-to-node table of the conditional edges after
`generate_fixes`. -/
def conditionalEdgeMap : List (String × String) :=
  [("manual_mapping", "apply_manual_mappings"),
   ("apply_fixes", "apply_fixes"),
   ("finalize", "finalize_output")]

/-- The node entered after `generate_fixes`: the conditional-edge table
applied to the router's label. -/
def nextAfterGenerateFixes (st : GraphState) : Option String :=
  (conditionalEdgeMap.find? (fun kv => kv.1 == shouldApplyManualMappings st)).map (·.2)

/-- JSON-native scalar cell values of a persisted session document (Python
`json` round-trips `None`, booleans, ints, floats — including the NaN
literal it emits by default — and strings losslessly). -/
inductive Scalar where
  | null : Scalar
  | bool : Bool → Scalar
  | int : Int → Scalar
  | num : ℚ → Scalar
  | nan : Scalar
  | str : String → Scalar
deriving DecidableEq

/-- One row of a tabular artifact, as `DataFrame.to_dict("records")`
produces it: an ordered column-to-cell association. -/
abbrev SRow : Type := List (String × Scalar)

/-- One field of a processing-result map: a pandas dataframe, a plain JSON
list of row records, or a JSON-native scalar. -/
inductive PField where
  | table : List SRow → PField
  | records : List SRow → PField
  | scalar : Scalar → PField
deriving DecidableEq

/-- A processing-result map (`Dict[str, Any]` with the field shapes the
pipeline persists). -/
abbrev PResult : Type := List (String × PField)

/-- The persisted session documents, keyed by session id (one JSON file per
session in the data directory). -/
abbrev SessionStore : Type := List (String × PResult)

/-- The serialization loop of `save_processing_result`: dataframes become
their `to_dict("records")` row lists, everything else is written as-is. -/
def serializeField : PField → PField
  | .table rows => .records rows
  | f => f

/-- `save_processing_result`: serialize every field and write the document
under the session id (overwriting an existing document of the same id). -/
def saveProcessingResult (store : SessionStore) (sessionId : String) (result : PResult) :
    SessionStore :=
  let doc := result.map (fun kv => (kv.1, serializeField kv.2))
  if store.any (fun kv => kv.1 == sessionId) then
    store.map (fun kv => if kv.1 == sessionId then (sessionId, doc) else kv)
  else store ++ [(sessionId, doc)]

/-- Column order of `pd.DataFrame(records)`: keys in order of first
appearance across the records. -/
def recordKeys (rows : List SRow) : List String :=
  rows.foldl (fun acc r => acc ++ ((r.map (·.1)).filter (fun k => !acc.contains k))) []

/-- `pd.DataFrame(records)`: every row is aligned to the common column
list, absent cells filled with NaN. -/
def pdFromRecords (rows : List SRow) : List SRow :=
  (rows.map fun r =>
    (recordKeys rows).map fun k => (k, (((r.find? (fun kv => kv.1 == k)).map (·.2)).getD .nan)))

/-- The reconstruction step of `load_processing_result`: only the
`final_dataframe` and `raw_dataframe` keys are turned back into dataframes. -/
def deserializeField (key : String) (f : PField) : PField :=
  if key == "final_dataframe" || key == "raw_dataframe" then
    match f with
    | .records rows => .table (pdFromRecords rows)
    | g => g
  else f

/-- `load_processing_result`: read the document back (absent id yields
`none`) and reconstruct the two dataframe keys. -/
def loadProcessingResult (store : SessionStore) (sessionId : String) : Option PResult :=
  ((store.find? (fun kv => kv.1 == sessionId)).map fun kv =>
    kv.2.map (fun f => (f.1, deserializeField f.1 f.2)))

/-- Row-for-row, column-for-column equivalence of two persisted fields:
scalars must be identical, and tabular data must carry identical rows
whether held as a dataframe or as its records list. -/
def fieldEquiv : PField → PField → Bool
  | .scalar a, .scalar b => a == b
  | .table r1, .table r2 => r1 == r2
  | .table r1, .records r2 => r1 == r2
  | .records r1, .table r2 => r1 == r2
  | .records r1, .records r2 => r1 == r2
  | _, _ => false

/-- Well-formedness of a tabular field for the pandas reconstruction:
every row lists exactly the first row's columns, in the same order, with
no duplicate column name. -/
def uniformRows (rows : List SRow) : Bool :=
  match rows with
  | [] => true
  | r0 :: _ =>
    dedupAux [] (r0.map (·.1)) == r0.map (·.1) &&
      rows.all (fun r => r.map (·.1) == r0.map (·.1))

/-- A result field whose tabular payload (if any) is uniform. -/
def fieldUniform : PField → Bool
  | .table rows => uniformRows rows
  | .records rows => uniformRows rows
  | .scalar _ => true

/-- The detection body never raises on the modelled values: `_apply_rule`
equals its `try`-body verbatim. -/
theorem applyRuleE_ok (v : Value) (r : CleaningRule) : applyRuleE v r = .ok (applyRule v r) := by
  rcases r with ⟨c, rt, p, rep⟩
  cases rt <;> rfl

/-- `_transform_value` is its `try`-body with the `except` branch replaced
by the original value. -/
theorem transformValue_eq_body (v : Value) (rt : RuleType) :
    transformValue v rt = ((transformValueE v rt).toOption.getD v) := by
  cases rt <;> simp only [transformValue, transformValueE] <;> (try split) <;>
    simp [Except.toOption]

/-- Claim C9: per-value rule application is total and never raises to the
caller — a raise inside the detection body makes `_apply_rule` report no
match, a raise inside the transformation body makes `_transform_value`
return the original value unchanged, and when the bodies return normally
the wrappers return exactly the bodies' answers. -/
theorem claim_c9_rule_application_degrades (v : Value) (rt : RuleType) :
    (transformValueE v rt = .error () → transformValue v rt = v) ∧
    (∀ w, transformValueE v rt = .ok w → transformValue v rt = w) ∧
    (∀ r : CleaningRule, applyRuleE v r = .error () → applyRule v r = false) ∧
    (∀ r : CleaningRule, ∀ b, applyRuleE v r = .ok b → applyRule v r = b) := by
  refine ⟨?_, ?_, ?_, ?_⟩
  · intro h
    rw [transformValue_eq_body, h]
    rfl
  · intro w h
    rw [transformValue_eq_body, h]
    rfl
  · intro r h
    rw [applyRuleE_ok] at h
    cases h
  · intro r b h
    rw [applyRuleE_ok] at h
    cases h
    rfl

/-- Claim C9 witness: the percentage transform body raises `ValueError` on
`"."` (it matches the detection regex `^[\d.]+%?$` but `float(".")` fails),
and the wrapper returns the value unchanged. -/
theorem claim_c9_witness :
    transformValueE (Value.str ".") RuleType.percentage = .error () ∧
    transformValue (Value.str ".") RuleType.percentage = Value.str "." ∧
    applyRule (Value.str ".") ⟨"discount_pct", .percentage, "^[\\d.]+%?$", "{pct}"⟩ = true :=
  ⟨by with_unfolding_all rfl,
    (claim_c9_rule_application_degrades (Value.str ".") RuleType.percentage).1
      (by with_unfolding_all rfl),
    by with_unfolding_all rfl⟩

set_option maxRecDepth 100000 in
/-- Claim C2 counterexample: on a `unit_price` column, the cleaner leaves
`"₹1,000.00"` and `"Rs 1000"` unchanged (the detection regex
`^[\d,]+\.?\d*$` rejects the currency glyph and the letters), so neither
becomes the numeric value `1000.0`; only `"1000"` does. -/
theorem claim_c2_counterexample :
    cleanData [("unit_price", [Value.str "₹1,000.00", Value.str "Rs 1000", Value.str "1000"])]
        [] =
      ([("unit_price", [Value.str "₹1,000.00", Value.str "Rs 1000", Value.num 1000])],
        [⟨"unit_price", Value.str "1000", Value.num 1000, "currency", 9 / 10⟩]) ∧
    Value.str "₹1,000.00" ≠ Value.num 1000 ∧ Value.str "Rs 1000" ≠ Value.num 1000 :=
  ⟨by with_unfolding_all rfl, by simp, by simp⟩

set_option maxRecDepth 100000 in
/-- Claim C2 as amended: on a currency-typed column the cleaner maps
`"1000"` to the numeric value `1000.0` while leaving `"₹1,000.00"` and
`"Rs 1000"` unchanged (their shapes fail the `^[\d,]+\.?\d*$` detector,
and `float("Rs1000")` would raise even if they reached the normalizer),
and the normalization is idempotent: cleaning the already-cleaned frame
again reproduces it (the value `1000.0` re-matches the detector via its
string form `"1000.0"` and re-normalizes to itself). -/
theorem claim_c2_amended :
    (cleanData [("unit_price", [Value.str "₹1,000.00", Value.str "Rs 1000", Value.str "1000"])]
        []).1 =
      [("unit_price", [Value.str "₹1,000.00", Value.str "Rs 1000", Value.num 1000])] ∧
    (cleanData [("unit_price", [Value.str "₹1,000.00", Value.str "Rs 1000", Value.num 1000])]
        []).1 =
      [("unit_price", [Value.str "₹1,000.00", Value.str "Rs 1000", Value.num 1000])] ∧
    normalizeCurrency "1000" = some 1000 ∧
    normalizeCurrency "Rs 1000" = none ∧
    transformValue (Value.num 1000) RuleType.currency = Value.num 1000 :=
  ⟨by with_unfolding_all rfl, by with_unfolding_all rfl, by with_unfolding_all rfl,
    by with_unfolding_all rfl, by with_unfolding_all rfl⟩

set_option maxRecDepth 100000 in
/-- Claim C3 counterexample: on a `discount_pct` column the input `"1"`
parses to `1.0`, and because the coercion condition `pct > 1` is strict,
the cleaner records the value `1.0`, not `0.01`. -/
theorem claim_c3_counterexample :
    cleanData [("discount_pct", [Value.str "1"])] [] =
      ([("discount_pct", [Value.num 1])],
        [⟨"discount_pct", Value.str "1", Value.num 1, "percentage", 9 / 10⟩]) ∧
    Value.num 1 ≠ Value.num (1 / 100) := by
  refine ⟨by with_unfolding_all rfl, ?_⟩
  simp only [ne_eq, Value.num.injEq]
  norm_num

set_option maxRecDepth 100000 in
/-- Claim C3 as amended: `"25%"` and `"0.25"` both normalize to `0.25`;
the divide-by-100 coercion applies exactly when the parsed value strictly
exceeds `1`, so `"1"` (parsed as `1.0`) normalizes to `1.0`. -/
theorem claim_c3_amended :
    (∀ (s : String) (q : ℚ), pyFloat (removeAll s '%') = some q → 1 < q →
      normalizePercentage s = some (q / 100)) ∧
    (∀ (s : String) (q : ℚ), pyFloat (removeAll s '%') = some q → q ≤ 1 →
      normalizePercentage s = some q) ∧
    cleanData [("discount_pct", [Value.str "25%", Value.str "0.25"])] [] =
      ([("discount_pct", [Value.num (1 / 4), Value.num (1 / 4)])],
        [⟨"discount_pct", Value.str "25%", Value.num (1 / 4), "percentage", 9 / 10⟩,
          ⟨"discount_pct", Value.str "0.25", Value.num (1 / 4), "percentage", 9 / 10⟩]) ∧
    cleanData [("discount_pct", [Value.str "1"])] [] =
      ([("discount_pct", [Value.num 1])],
        [⟨"discount_pct", Value.str "1", Value.num 1, "percentage", 9 / 10⟩]) := by
  refine ⟨?_, ?_, by with_unfolding_all rfl, by with_unfolding_all rfl⟩
  · intro s q hq h1
    simp [normalizePercentage, hq, h1]
  · intro s q hq h1
    simp [normalizePercentage, hq, not_lt.mpr h1]

/-- Claim C3 witness: the two general coercion conjuncts instantiated at
`"2.5"` (parsed value `2.5 > 1`, divided by 100) and `"0.75"` (parsed
value `≤ 1`, kept). -/
theorem claim_c3_witness :
    normalizePercentage "2.5" = some (5 / 2 / 100) ∧
    normalizePercentage "0.75" = some (3 / 4) :=
  ⟨claim_c3_amended.1 "2.5" (5 / 2) (by with_unfolding_all rfl) (by norm_num),
    claim_c3_amended.2.1 "0.75" (3 / 4) (by with_unfolding_all rfl) (by norm_num)⟩

set_option maxRecDepth 100000 in
/-- Claim C6: the learned-fix round trip is broken by a key mismatch.
Promoting the same fix twice does leave exactly one store entry with
`usage_count = 2` (under the key `phone_9876543210`), but
`_check_learned_fixes` reads the key `phone_format_9876543210`
(`f"{column}_{error_type}_{value}"`), so the promoted fix is never found
and `_generate_single_fix` falls through to the model oracle. -/
theorem claim_c6_learned_fix_key_mismatch :
    promoteFix
        (promoteFix []
          ⟨"phone", 3, Value.str "9876543210", Value.str "+91-9876543210",
            "Reformatted to +91", 4 / 5, "format"⟩)
        ⟨"phone", 3, Value.str "9876543210", Value.str "+91-9876543210",
          "Reformatted to +91", 4 / 5, "format"⟩ =
      [("phone_9876543210",
        ⟨Value.str "+91-9876543210", "Reformatted to +91", 4 / 5, 2⟩)] ∧
    checkLearnedFixes
        [("phone_9876543210",
          ⟨Value.str "+91-9876543210", "Reformatted to +91", 4 / 5, 2⟩)]
        "phone" (Value.str "9876543210") "format" = none ∧
    generateSingleFix
        [("phone_9876543210",
          ⟨Value.str "+91-9876543210", "Reformatted to +91", 4 / 5, 2⟩)]
        (fun _ _ _ => none) "phone" (Value.str "9876543210") "format" 3 = none :=
  ⟨by with_unfolding_all rfl, by with_unfolding_all rfl, by with_unfolding_all rfl⟩

/-- Claim C7: the branch after `generate_fixes` — unmapped columns with no
manual mappings route to `apply_manual_mappings`; otherwise any fix
suggestion routes to `apply_fixes`; otherwise the run finalizes; and the
graph carries the unconditional `apply_manual_mappings → apply_fixes`
edge. -/
theorem claim_c7_orchestrator_branch (st : GraphState) :
    (st.unmappedColumns ≠ [] → st.manualMappings = [] →
      nextAfterGenerateFixes st = some "apply_manual_mappings") ∧
    ((st.unmappedColumns = [] ∨ st.manualMappings ≠ []) → st.fixSuggestions ≠ [] →
      nextAfterGenerateFixes st = some "apply_fixes") ∧
    ((st.unmappedColumns = [] ∨ st.manualMappings ≠ []) → st.fixSuggestions = [] →
      nextAfterGenerateFixes st = some "finalize_output") ∧
    ("apply_manual_mappings", "apply_fixes") ∈ staticEdges := by
  refine ⟨?_, ?_, ?_, by simp [staticEdges]⟩
  · intro hu hm
    simp [nextAfterGenerateFixes, shouldApplyManualMappings, conditionalEdgeMap, hu, hm,
      List.isEmpty_iff]
  · intro hor hf
    rcases hor with h | h <;>
      simp [nextAfterGenerateFixes, shouldApplyManualMappings, conditionalEdgeMap, h, hf,
        List.isEmpty_iff]
  · intro hor hf
    rcases hor with h | h <;>
      simp [nextAfterGenerateFixes, shouldApplyManualMappings, conditionalEdgeMap, h, hf,
        List.isEmpty_iff]

/-- Claim C7 witness: the three routing cases at concrete states (one
unmapped column and no manual mapping; no unmapped column with one
suggestion; neither). -/
theorem claim_c7_witness :
    nextAfterGenerateFixes ⟨["colA"], [], []⟩ = some "apply_manual_mappings" ∧
    nextAfterGenerateFixes ⟨[], [],
        [⟨"phone", 0, Value.str "x", Value.str "y", "r", 1 / 2, "llm"⟩]⟩ =
      some "apply_fixes" ∧
    nextAfterGenerateFixes ⟨[], [], []⟩ = some "finalize_output" :=
  ⟨(claim_c7_orchestrator_branch ⟨["colA"], [], []⟩).1 (by simp) rfl,
    (claim_c7_orchestrator_branch _).2.1 (Or.inl rfl) (by simp),
    (claim_c7_orchestrator_branch _).2.2.1 (Or.inl rfl) rfl⟩

set_option maxRecDepth 100000 in
/-- Claim C5 counterexample: `"tel"` is a declared synonym of `phone` in
the Stack B synonym table, and the Stack B mapper returns it with
confidence `0.9` (the `synonym` band), not `1.0` as the claim states. -/
theorem claim_c5_counterexample :
    (synonymsOf "phone").contains "tel" = true ∧
    findBestMatchB "tel" ["phone"] = (some "phone", 9 / 10) ∧
    (9 / 10 : ℚ) ≠ 1 :=
  ⟨by with_unfolding_all rfl, by with_unfolding_all rfl, by norm_num⟩

/-- Claim C5 as amended: the literal-name strategies strictly precede
fuzzy scoring in both mappers — a Stack A keyword/name hit returns that
canonical column with confidence `1.0` and type `exact` regardless of the
semantic oracle and of any fuzzy scores; a Stack B exact name hit returns
confidence `1.0`; a Stack B synonym hit (with no exact hit) returns
confidence `0.9`, Stack B's declared `synonym` band. -/
theorem claim_c5_amended :
    (∀ (sem : SemOracle) (src c : String), exactMatchA (pyLowerStrip src) = some c →
      findBestMatchA sem src = some ⟨src, c, 1, "exact"⟩) ∧
    (∀ (src : String) (cols : List String) (c : String),
      exactStageB (pyLowerStrip src) cols = some c →
      findBestMatchB src cols = (some c, 1)) ∧
    (∀ (src : String) (cols : List String) (c : String),
      exactStageB (pyLowerStrip src) cols = none →
      synonymStageB (pyLowerStrip src) cols = some c →
      findBestMatchB src cols = (some c, 9 / 10)) := by
  refine ⟨?_, ?_, ?_⟩
  · intro sem src c h
    simp [findBestMatchA, h]
  · intro src cols c h
    simp [findBestMatchB, h]
  · intro src cols c he hs
    simp [findBestMatchB, he, hs]

set_option maxRecDepth 100000 in
/-- Claim C5 witness: the three precedence conjuncts at concrete inputs —
Stack A `"qty"` (a `quantity` keyword) maps with confidence 1.0 and type
`exact` under an always-failing oracle; Stack B `"Phone"` equals canonical
`phone` case-insensitively (confidence 1.0); Stack B `"telephone"` is a
`phone` synonym (confidence 0.9). -/
theorem claim_c5_witness :
    findBestMatchA (fun _ => none) "qty" = some ⟨"qty", "quantity", 1, "exact"⟩ ∧
    findBestMatchB "Phone" ["phone"] = (some "phone", 1) ∧
    findBestMatchB "telephone" ["phone"] = (some "phone", 9 / 10) :=
  ⟨claim_c5_amended.1 (fun _ => none) "qty" "quantity" (by with_unfolding_all rfl),
    claim_c5_amended.2.1 "Phone" ["phone"] "phone" (by with_unfolding_all rfl),
    claim_c5_amended.2.2 "telephone" ["phone"] "phone" (by with_unfolding_all rfl)
      (by with_unfolding_all rfl)⟩

set_option maxRecDepth 400000 in
/-- Claim C4 counterexample: the source column `"created_xy"` has best
Stack A fuzzy score exactly `0.7` (the keyword `created` of `order_date`
is a 7-character substring of the 10-character name), no exact match, and
no semantic reply — yet the Stack A mapper rejects it (its gate is the
strict `> 0.7`) and reports it unmapped, where the claim says a score
exactly at the threshold is accepted. -/
theorem claim_c4_counterexample :
    exactMatchA (pyLowerStrip "created_xy") = none ∧
    fuzzyMatchA (pyLowerStrip "created_xy") = (some "order_date", 7 / 10) ∧
    findBestMatchA (fun _ => none) "created_xy" = none ∧
    mapColumnsA (fun _ => none) ["created_xy"] = [] ∧
    getUnmappedColumns ["created_xy"] (mapColumnsA (fun _ => none) ["created_xy"]) =
      ["created_xy"] :=
  ⟨by with_unfolding_all rfl, by with_unfolding_all rfl, by with_unfolding_all rfl,
    by with_unfolding_all rfl, by with_unfolding_all rfl⟩

/-- Claim C4 as amended: the Stack A fuzzy gate is strict — with no
earlier match and no semantic reply, a best fuzzy score strictly above
`0.7` is accepted with that score as confidence, while a score at or
below `0.7` leaves the column unmapped; the Stack B gate is inclusive — a
best confidence of at least `0.4` (including exactly `0.4`) is accepted
with that confidence, and anything strictly below is reported unmapped. -/
theorem claim_c4_fuzzy_threshold :
    (∀ (src c : String) (s : ℚ), exactMatchA (pyLowerStrip src) = none →
      fuzzyMatchA (pyLowerStrip src) = (some c, s) →
      (s > 7 / 10 → findBestMatchA (fun _ => none) src = some ⟨src, c, s, "fuzzy"⟩) ∧
      (s ≤ 7 / 10 → findBestMatchA (fun _ => none) src = none)) ∧
    (∀ (src : String) (cols : List String) (c : Option String) (s : ℚ),
      exactStageB (pyLowerStrip src) cols = none →
      synonymStageB (pyLowerStrip src) cols = none →
      fuzzyStageB (pyLowerStrip src) cols = (c, s) →
      (s ≥ 2 / 5 →
        findBestMatchB src cols = (c, s) ∧
        (mapColumnsB [src] cols []).mapping = [(src, c)] ∧
        (mapColumnsB [src] cols []).confidenceScores = [(src, s)] ∧
        (mapColumnsB [src] cols []).unmappedColumns = []) ∧
      (s < 2 / 5 →
        (mapColumnsB [src] cols []).mapping = [] ∧
        (mapColumnsB [src] cols []).unmappedColumns = [src])) := by
  constructor
  · intro src c s he hf
    constructor
    · intro hgt
      simp [findBestMatchA, he, hf, semanticStage, hgt]
    · intro hle
      simp [findBestMatchA, he, hf, semanticStage, not_lt.mpr hle]
  · intro src cols c s he hs hf
    have hb : findBestMatchB src cols = (c, s) := by
      simp [findBestMatchB, he, hs, hf]
    constructor
    · intro hge
      refine ⟨hb, ?_, ?_, ?_⟩ <;>
        simp [mapColumnsB, hb, hge]
    · intro hlt
      have : ¬(s ≥ 2 / 5) := not_le.mpr hlt
      constructor <;> simp [mapColumnsB, hb, this]

set_option maxRecDepth 400000 in
/-- Claim C4 witness: the amended boundary at concrete inputs — Stack B
source `"exxxl"` against canonical `["email"]` scores `fuzz.ratio = 40`,
i.e. confidence exactly `0.4`, and is accepted with that confidence, while
Stack A source `"created_xy"` scores exactly `0.7` and is rejected. -/
theorem claim_c4_witness :
    (mapColumnsB ["exxxl"] ["email"] []).mapping = [("exxxl", some "email")] ∧
    (mapColumnsB ["exxxl"] ["email"] []).confidenceScores = [("exxxl", 2 / 5)] ∧
    (mapColumnsB ["exxxl"] ["email"] []).unmappedColumns = [] ∧
    findBestMatchA (fun _ => none) "created_xy" = none :=
  have hB :=
    (claim_c4_fuzzy_threshold.2 "exxxl" ["email"] (some "email") (2 / 5)
        (by with_unfolding_all rfl) (by with_unfolding_all rfl)
        (by with_unfolding_all rfl)).1 (by norm_num)
  have hA :=
    (claim_c4_fuzzy_threshold.1 "created_xy" "order_date" (7 / 10)
        (by with_unfolding_all rfl) (by with_unfolding_all rfl)).2 (by norm_num)
  ⟨hB.2.1, hB.2.2.1, hB.2.2.2, hA⟩

/-- A string matching the phone pattern carries exactly 12 digits: the two
of `91` plus the ten subscriber digits. -/
theorem phoneRe_digit_count (s : String) (h : phoneRe s = true) :
    (s.toList.filter Char.isDigit).length = 12 := by
  unfold phoneRe at h
  simp only [Bool.and_eq_true, beq_iff_eq] at h
  obtain ⟨⟨hpre, hlen⟩, hall⟩ := h
  obtain ⟨t, ht⟩ : "+91-".toList <+: s.toList := List.isPrefixOf_iff_prefix.mp hpre
  have hdrop : s.toList.drop 4 = t := by
    rw [← ht]
    rfl
  rw [hdrop] at hlen hall
  rw [← ht, List.filter_append]
  have ht2 : t.filter Char.isDigit = t :=
    List.filter_eq_self.mpr (by simpa using hall)
  rw [ht2]
  simp [hlen]

/-- On a value already in `+91-XXXXXXXXXX` form, `_normalize_phone` is the
identity: the digit strip leaves 12 digits, not 10. -/
theorem normalizePhone_of_phoneRe (s : String) (h : phoneRe s = true) :
    normalizePhone s = s := by
  have h12 := phoneRe_digit_count s h
  simp only [String.toList] at h12
  unfold normalizePhone
  simp [String.toList, h12]

/-- Evaluation of `_clean_column` over a one-value `phone` column: the only
phone rule fires exactly on `^\+91-\d{10}$`-shaped values. -/
theorem cleanColumn_phone_single (s : String) :
    cleanColumn [Value.str s] "phone" =
      if phoneRe s then
        [⟨"phone", Value.str s, Value.str (normalizePhone s), "phone_format", 9 / 10⟩]
      else [] := by
  have hrules : cleaningRules "phone" =
      [⟨"phone", .phoneFormat, "^\\+91-\\d{10}$", "+91-{phone}"⟩] := rfl
  have happ : applyRule (Value.str s)
      ⟨"phone", .phoneFormat, "^\\+91-\\d{10}$", "+91-{phone}"⟩ = phoneRe s := rfl
  have htrans : transformValue (Value.str s) RuleType.phoneFormat =
      Value.str (normalizePhone s) := rfl
  unfold cleanColumn pdUnique pdUniqueAux
  simp only [List.any_nil, Bool.false_eq_true, if_neg, List.filterMap, isNA, hrules,
    List.find?, happ, htrans]
  by_cases h : phoneRe s <;> simp [h, ruleTypeStr, htrans]

/-- Claim C1 as amended: the Stack A cleaner leaves every `phone` value
unchanged — the rule's detector `^\+91-\d{10}$` only matches values
already in target form, and on those the normalizer sees 12 digits and
returns the input — while `_normalize_phone` taken by itself maps any
value stripping to exactly ten digits to `+91-<digits>` and leaves other
values unchanged, and the LLM Fix Agent's validator accepts exactly the
strings `+91-` followed by ten digits. -/
theorem claim_c1_phone_behaviour (s : String) :
    applyResults [Value.str s] (cleanColumn [Value.str s] "phone") = [Value.str s] ∧
    ((s.toList.filter Char.isDigit).length = 10 →
      normalizePhone s = "+91-" ++ ⟨s.toList.filter Char.isDigit⟩) ∧
    ((s.toList.filter Char.isDigit).length ≠ 10 → normalizePhone s = s) ∧
    ((vPhone s).valid = true ↔
      ∃ d : List Char, s.toList = '+' :: '9' :: '1' :: '-' :: d ∧ d.length = 10 ∧
        ∀ c ∈ d, Char.isDigit c) := by
  refine ⟨?_, ?_, ?_, ?_⟩
  · rw [cleanColumn_phone_single]
    by_cases h : phoneRe s
    · simp [h, applyResults, pdEq, normalizePhone_of_phoneRe s h]
    · simp [h, applyResults]
  · intro h
    simp only [String.toList] at h
    simp [normalizePhone, String.toList, h]
  · intro h
    simp only [String.toList] at h
    simp [normalizePhone, String.toList, h]
  · have hv : (vPhone s).valid = phoneRe s := by
      by_cases h : phoneRe s <;> simp [vPhone, h]
    rw [hv]
    unfold phoneRe
    simp only [Bool.and_eq_true, beq_iff_eq, List.isPrefixOf_iff_prefix]
    constructor
    · rintro ⟨⟨⟨t, ht⟩, hlen⟩, hall⟩
      have hdrop : s.toList.drop 4 = t := by
        rw [← ht]
        rfl
      rw [hdrop] at hlen hall
      exact ⟨t, by rw [← ht]; rfl, hlen, by simpa using hall⟩
    · rintro ⟨d, hd, hlen, hall⟩
      have hdrop : s.toList.drop 4 = d := by
        rw [hd]
        rfl
      refine ⟨⟨⟨d, by rw [hd]; rfl⟩, ?_⟩, ?_⟩ <;> rw [hdrop]
      · exact hlen
      · simpa using hall

/-- Claim C1 counterexample: `"98765 43210"` strips to exactly ten digits,
yet `clean_data` on a column mapped to `phone` leaves it unchanged (the
rule's detector rejects it), so it is not normalized to
`+91-9876543210` as the claim states. -/
theorem claim_c1_counterexample :
    (("98765 43210" : String).toList.filter Char.isDigit).length = 10 ∧
    cleanData [("phones", [Value.str "98765 43210"])] [("phones", "phone")] =
      ([("phone", [Value.str "98765 43210"])], []) ∧
    Value.str "98765 43210" ≠ Value.str "+91-9876543210" :=
  ⟨by with_unfolding_all rfl, by with_unfolding_all rfl,
    of_decide_eq_false (by with_unfolding_all rfl)⟩

/-- Claim C1 witness: the amended conjuncts at concrete inputs — the
formatted `"(987) 654-3210"` is normalized by `_normalize_phone` alone yet
left untouched by the cleaner, and the validator accepts
`"+91-9876543210"` while rejecting a 9-digit subscriber number. -/
theorem claim_c1_witness :
    normalizePhone "(987) 654-3210" = "+91-9876543210" ∧
    applyResults [Value.str "(987) 654-3210"]
        (cleanColumn [Value.str "(987) 654-3210"] "phone") =
      [Value.str "(987) 654-3210"] ∧
    (vPhone "+91-9876543210").valid = true ∧
    normalizePhone "+91-123456789" = "+91-123456789" :=
  ⟨(claim_c1_phone_behaviour "(987) 654-3210").2.1 (by with_unfolding_all rfl),
    (claim_c1_phone_behaviour "(987) 654-3210").1,
    (claim_c1_phone_behaviour "+91-9876543210").2.2.2.mpr
      ⟨"9876543210".toList, by with_unfolding_all rfl, by with_unfolding_all rfl,
        by decide⟩,
    (claim_c1_phone_behaviour "+91-123456789").2.2.1 (by with_unfolding_all (exact nofun))⟩

/-- An absent cell never groups with a present one under the
`Series.unique` identity. -/
theorem sameCell_nan_false {v w : Value} (hv : isNA v = true) (hw : isNA w = false) :
    sameCell v w = false := by
  cases v with
  | nan => cases w <;> simp [sameCell, pdEq, isNA] at hw ⊢
  | str a => simp [isNA] at hv
  | num a => simp [isNA] at hv
  | int a => simp [isNA] at hv

/-- A `filterMap` whose function rejects everything failing a predicate is
unchanged by pre-filtering with that predicate. -/
theorem filterMap_of_none {α β : Type} (p : α → Bool) (f : α → Option β)
    (h : ∀ a, p a = false → f a = none) :
    ∀ l : List α, l.filterMap f = (l.filter p).filterMap f := by
  intro l
  induction l with
  | nil => rfl
  | cons a l ih =>
    by_cases hp : p a
    · simp [List.filterMap_cons, List.filter_cons, hp, ih]
    · have := h a (by simpa using hp)
      simp [List.filterMap_cons, List.filter_cons, hp, this, ih]

/-- Dropping absent cells before first-occurrence deduplication only drops
the absent cells of the deduplicated list: present cells collapse
identically whatever absent cells the seen set carries. -/
theorem pdUniqueAux_filter :
    ∀ (l : List Value) (seenA seenB : List Value),
      (∀ w, isNA w = false →
        seenA.any (fun x => sameCell x w) = seenB.any (fun x => sameCell x w)) →
      (pdUniqueAux seenA l).filter (fun v => !isNA v) =
        pdUniqueAux seenB (l.filter (fun v => !isNA v)) := by
  intro l
  induction l with
  | nil => intro seenA seenB _; rfl
  | cons v vs ih =>
    intro seenA seenB hinv
    by_cases hNA : isNA v
    · have hfilter : (v :: vs).filter (fun v => !isNA v) = vs.filter (fun v => !isNA v) := by
        simp [List.filter_cons, hNA]
      rw [hfilter]
      show (if seenA.any (fun x => sameCell x v) then pdUniqueAux seenA vs
          else v :: pdUniqueAux (v :: seenA) vs).filter (fun v => !isNA v) = _
      by_cases hany : seenA.any (fun x => sameCell x v)
      · rw [if_pos hany]
        exact ih seenA seenB hinv
      · rw [if_neg hany]
        have : ((v :: pdUniqueAux (v :: seenA) vs).filter (fun v => !isNA v)) =
            (pdUniqueAux (v :: seenA) vs).filter (fun v => !isNA v) := by
          simp [List.filter_cons, hNA]
        rw [this]
        refine ih (v :: seenA) seenB (fun w hw => ?_)
        simp [List.any_cons, sameCell_nan_false hNA hw, hinv w hw]
    · have hNAf : isNA v = false := by simpa using hNA
      have hfilter : (v :: vs).filter (fun v => !isNA v) =
          v :: vs.filter (fun v => !isNA v) := by
        simp [List.filter_cons, hNAf]
      rw [hfilter]
      show (if seenA.any (fun x => sameCell x v) then pdUniqueAux seenA vs
          else v :: pdUniqueAux (v :: seenA) vs).filter (fun v => !isNA v) =
        (if seenB.any (fun x => sameCell x v) then pdUniqueAux seenB (vs.filter _)
          else v :: pdUniqueAux (v :: seenB) (vs.filter _))
      rw [← hinv v hNAf]
      by_cases hany : seenA.any (fun x => sameCell x v)
      · rw [if_pos hany, if_pos hany]
        exact ih seenA seenB hinv
      · rw [if_neg hany, if_neg hany]
        have : ((v :: pdUniqueAux (v :: seenA) vs).filter (fun v => !isNA v)) =
            v :: (pdUniqueAux (v :: seenA) vs).filter (fun v => !isNA v) := by
          simp [List.filter_cons, hNAf]
        rw [this]
        refine congrArg (v :: ·) (ih (v :: seenA) (v :: seenB) (fun w hw => ?_))
        simp [List.any_cons, hinv w hw]

/-- A produced fix suggestion always carries the issue's value as its
`original_value`, in both the learned and the model-generated branch. -/
theorem generateSingleFix_originalValue (store : LearnedStore) (llm : LlmOracle)
    (col : String) (v : Value) (et : String) (idx : ℕ) (fs : FixSuggestion)
    (h : generateSingleFix store llm col v et idx = some fs) : fs.originalValue = v := by
  unfold generateSingleFix at h
  cases hl : checkLearnedFixes store col v et with
  | some lf =>
    rw [hl] at h
    cases h
    rfl
  | none =>
    rw [hl] at h
    cases hm : llm col v et with
    | some g =>
      rw [hm] at h
      cases h
      rfl
    | none =>
      rw [hm] at h
      cases h

/-- Claim C10: a cell holding the absent-value sentinel is invisible to
cleaning and validation — the cleaner produces the same results whether or
not the absent cells are present, no cleaning record mentions an absent
value, the validator likewise ignores absent cells and never reports one,
and therefore (suggestions being generated only from validation issues,
carrying the issue's value) no fix suggestion ever targets an absent
value. -/
theorem claim_c10_nan_invisible :
    (∀ (values : List Value) (col : String),
      cleanColumn values col = cleanColumn (values.filter (fun v => !isNA v)) col) ∧
    (∀ (values : List Value) (col : String) (r : CleaningResult),
      r ∈ cleanColumn values col → isNA r.originalValue = false) ∧
    (∀ (series : List (ℕ × Value)) (col : String),
      validateColumn series col = validateColumn (series.filter (fun iv => !isNA iv.2)) col) ∧
    (∀ (series : List (ℕ × Value)) (col : String) (e : VErr),
      e ∈ validateColumn series col → isNA e.value = false) ∧
    (∀ (schema : List String) (store : LearnedStore) (llm : LlmOracle) (errors : List VErr),
      (∀ e ∈ errors, isNA e.value = false) →
      ∀ fs ∈ generateFixSuggestions schema store llm errors,
        isNA fs.originalValue = false) := by
  have hker : ∀ (col : String) (v : Value), isNA v = true →
      (if isNA v then none
       else
        match (cleaningRules col).find? (fun r => applyRule v r) with
        | some r =>
          some (⟨col, v, transformValue v r.ruleType, ruleTypeStr r.ruleType, 9 / 10⟩ :
            CleaningResult)
        | none => none) = none := by
    intro col v hv
    simp [hv]
  refine ⟨?_, ?_, ?_, ?_, ?_⟩
  · intro values col
    unfold cleanColumn
    rw [filterMap_of_none (fun v => !isNA v) _
        (fun a ha => hker col a (by simpa using ha)) (pdUnique values)]
    unfold pdUnique
    rw [pdUniqueAux_filter values [] [] (fun _ _ => rfl)]
  · intro values col r hr
    unfold cleanColumn at hr
    rw [List.mem_filterMap] at hr
    obtain ⟨v, _, hfv⟩ := hr
    by_cases hNA : isNA v
    · rw [hker col v hNA] at hfv
      cases hfv
    · rw [if_neg hNA] at hfv
      cases hfind : (cleaningRules col).find? (fun r => applyRule v r) with
      | some rule =>
        rw [hfind] at hfv
        cases hfv
        simpa using hNA
      | none =>
        rw [hfind] at hfv
        cases hfv
  · intro series col
    unfold validateColumn
    refine filterMap_of_none (fun iv => !isNA iv.2) _ (fun a ha => ?_) series
    have ha2 : isNA a.2 = true := by simpa using ha
    rw [if_pos ha2]
  · intro series col e he
    unfold validateColumn at he
    rw [List.mem_filterMap] at he
    obtain ⟨iv, _, hfv⟩ := he
    by_cases hNA : isNA iv.2
    · rw [if_pos hNA] at hfv
      cases hfv
    · rw [if_neg hNA] at hfv
      by_cases hvalid : (validateValue iv.2 col).valid
      · rw [if_pos hvalid] at hfv
        cases hfv
      · rw [if_neg hvalid] at hfv
        cases hfv
        simpa using hNA
  · intro schema store llm errors herr fs hfs
    unfold generateFixSuggestions at hfs
    rw [List.mem_filterMap] at hfs
    obtain ⟨e, he, hfe⟩ := hfs
    by_cases hc : schema.contains e.column
    · rw [if_pos hc] at hfe
      rw [generateSingleFix_originalValue store llm e.column e.value e.errorType e.rowIndex
        fs hfe]
      exact herr e he
    · rw [if_neg hc] at hfe
      cases hfe

/-- Claim C10 witness: the invisibility conjuncts at concrete inputs — a
`phone` column with an absent cell cleans and validates exactly like the
column without it, and a concrete error list free of absent values yields
suggestions free of absent values. -/
theorem claim_c10_witness :
    cleanColumn [Value.nan, Value.str "+91-9876543210"] "phone" =
      cleanColumn [Value.str "+91-9876543210"] "phone" ∧
    validateColumn [(0, Value.nan), (1, Value.str "abc")] "phone" =
      validateColumn [(1, Value.str "abc")] "phone" ∧
    ∀ fs ∈ generateFixSuggestions ["phone"] [] (fun _ _ _ => none)
        [⟨"phone", 1, Value.str "abc", "format", "Phone must be in format +91-XXXXXXXXXX"⟩],
      isNA fs.originalValue = false := by
  refine ⟨?_, ?_, ?_⟩
  · have h := claim_c10_nan_invisible.1 [Value.nan, Value.str "+91-9876543210"] "phone"
    rw [h]
    with_unfolding_all rfl
  · have h := claim_c10_nan_invisible.2.2.1 [(0, Value.nan), (1, Value.str "abc")] "phone"
    rw [h]
    with_unfolding_all rfl
  · exact claim_c10_nan_invisible.2.2.2.2 ["phone"] [] (fun _ _ _ => none)
      [⟨"phone", 1, Value.str "abc", "format", "Phone must be in format +91-XXXXXXXXXX"⟩]
      (by intro e he; simp at he; rw [he]; rfl)

/-- Deduplication never lengthens a list. -/
theorem dedupAux_length_le : ∀ (l seen : List String), (dedupAux seen l).length ≤ l.length := by
  intro l
  induction l with
  | nil => intro seen; simp [dedupAux]
  | cons w ws ih =>
    intro seen
    by_cases h : seen.contains w
    · simp only [dedupAux, h, if_pos]
      exact Nat.le_succ_of_le (ih seen)
    · simp only [dedupAux, h, Bool.false_eq_true, not_false_eq_true, if_neg]
      simpa using ih (w :: seen)

/-- A list fixed by deduplication avoids the seen set and has no
duplicates. -/
theorem dedupAux_eq_self : ∀ (l seen : List String), dedupAux seen l = l →
    (∀ x ∈ seen, x ∉ l) ∧ l.Nodup := by
  intro l
  induction l with
  | nil => intro seen _; simp
  | cons w ws ih =>
    intro seen h
    by_cases hc : seen.contains w
    · exfalso
      rw [dedupAux, if_pos hc] at h
      have hlen := dedupAux_length_le ws seen
      rw [h] at hlen
      exact absurd hlen (by simp)
    · rw [dedupAux, if_neg hc] at h
      have h2 : dedupAux (w :: seen) ws = ws := by
        injection h
      obtain ⟨hsub, hnd⟩ := ih (w :: seen) h2
      have hw : w ∉ ws := hsub w (by simp)
      have hwseen : w ∉ seen := by simpa using hc
      refine ⟨?_, by simp [List.nodup_cons, hw, hnd]⟩
      intro x hx
      have hxw : x ≠ w := fun heq => hwseen (heq ▸ hx)
      simp only [List.mem_cons, not_or]
      exact ⟨hxw, hsub x (by simp [hx])⟩

/-- The serialized document written by `save_processing_result` is the one
`load` finds under the session id, whether the save inserted a new
document or overwrote an existing one. -/
theorem save_find (store : SessionStore) (sid : String) (result : PResult) :
    (saveProcessingResult store sid result).find? (fun kv => kv.1 == sid) =
      some (sid, result.map (fun kv => (kv.1, serializeField kv.2))) := by
  unfold saveProcessingResult
  induction store with
  | nil => simp
  | cons kv rest ih =>
    by_cases hk : kv.1 = sid
    · have hany : (kv :: rest).any (fun kv => kv.1 == sid) = true := by simp [hk]
      rw [if_pos hany]
      have hif : (if (kv.1 == sid) = true then
          (sid, result.map (fun kv => (kv.1, serializeField kv.2))) else kv) =
          (sid, result.map (fun kv => (kv.1, serializeField kv.2))) := by
        rw [if_pos (by simp [hk])]
      rw [List.map_cons, hif, List.find?_cons_of_pos _ (by simp)]
    · have hkb : ¬((kv.1 == sid) = true) := by simp [hk]
      have hany : (kv :: rest).any (fun kv => kv.1 == sid) =
          rest.any (fun kv => kv.1 == sid) := by
        simp [List.any_cons, hk]
      rw [hany]
      by_cases hrest : rest.any (fun kv => kv.1 == sid) = true
      · rw [if_pos hrest]
        rw [if_pos hrest] at ih
        have hif : (if (kv.1 == sid) = true then
            (sid, result.map (fun kv => (kv.1, serializeField kv.2))) else kv) = kv := by
          rw [if_neg hkb]
        rw [List.map_cons, hif,
          List.find?_cons_of_neg (p := fun kv : String × PResult => kv.1 == sid) _ hkb]
        exact ih
      · rw [if_neg hrest]
        rw [if_neg hrest] at ih
        rw [List.cons_append,
          List.find?_cons_of_neg (p := fun kv : String × PResult => kv.1 == sid) _ hkb]
        exact ih

/-- Reconstructing a single record row from its own key list is the
identity when the keys are distinct. -/
theorem row_reconstruct : ∀ (r : SRow), (r.map (·.1)).Nodup →
    (r.map (·.1)).map
      (fun k => (k, (((r.find? (fun kv => kv.1 == k)).map (·.2)).getD Scalar.nan))) = r := by
  intro r
  induction r with
  | nil => intro _; rfl
  | cons kv r ih =>
    intro hnd
    simp only [List.map_cons, List.nodup_cons] at hnd
    obtain ⟨hk, hnd2⟩ := hnd
    simp only [List.map_cons]
    rw [List.find?_cons_of_pos _ (by simp)]
    have htail : (r.map (·.1)).map
        (fun k => (k, (((kv :: r).find? (fun p => p.1 == k)).map (·.2)).getD Scalar.nan)) =
        (r.map (·.1)).map
        (fun k => (k, ((r.find? (fun p => p.1 == k)).map (·.2)).getD Scalar.nan)) := by
      refine List.map_congr_left (fun k hkmem => ?_)
      have hne : ¬((kv.1 == k) = true) := by
        simp only [beq_iff_eq]
        intro heq
        exact hk (heq ▸ hkmem)
      rw [List.find?_cons_of_neg (p := fun p : String × Scalar => p.1 == k) _ hne]
    rw [htail, ih hnd2]
    simp

/-- The key-accumulation fold of `recordKeys` is stationary once it holds
the common key list of a uniform record set. -/
theorem recordKeys_of_uniform : ∀ (rows : List SRow) (k0 : List String),
    (∀ r ∈ rows, r.map (·.1) = k0) →
    (rows.foldl (fun acc r => acc ++ ((r.map (·.1)).filter (fun k => !acc.contains k))) k0) =
      k0 := by
  intro rows
  induction rows with
  | nil => intro k0 _; rfl
  | cons r rest ih =>
    intro k0 hall
    have hr : r.map (·.1) = k0 := hall r (by simp)
    have hfilter : (r.map (·.1)).filter (fun k => !k0.contains k) = [] := by
      rw [hr]
      refine List.filter_eq_nil_iff.mpr (fun k hkm => ?_)
      simp [hkm]
    simp only [List.foldl_cons, hfilter, List.append_nil]
    exact ih k0 (fun x hx => hall x (by simp [hx]))

/-- `pd.DataFrame(records)` reproduces a uniform record set exactly. -/
theorem pdFromRecords_id (rows : List SRow) (h : uniformRows rows = true) :
    pdFromRecords rows = rows := by
  cases rows with
  | nil => rfl
  | cons r0 rest =>
    unfold uniformRows at h
    simp only [Bool.and_eq_true, beq_iff_eq, List.all_eq_true] at h
    obtain ⟨hdedup, hall⟩ := h
    have hall2 : ∀ r ∈ r0 :: rest, r.map (·.1) = r0.map (·.1) := by
      intro r hr
      have := hall r hr
      simpa using this
    have hnd : (r0.map (·.1)).Nodup := (dedupAux_eq_self (r0.map (·.1)) [] hdedup).2
    have hkeys : recordKeys (r0 :: rest) = r0.map (·.1) := by
      unfold recordKeys
      have hstart : ((r0.map (·.1)).filter (fun k => !(([] : List String).contains k))) =
          r0.map (·.1) :=
        List.filter_eq_self.mpr (fun a _ => by simp)
      simp only [List.foldl_cons, List.nil_append, hstart]
      exact recordKeys_of_uniform rest (r0.map (·.1)) (fun r hr => hall2 r (by simp [hr]))
    unfold pdFromRecords
    rw [hkeys]
    have hrow : ∀ r ∈ r0 :: rest,
        ((r0.map (·.1)).map
          (fun k => (k, (((r.find? (fun kv => kv.1 == k)).map (·.2)).getD Scalar.nan)))) =
          r := by
      intro r hr
      rw [← hall2 r hr]
      exact row_reconstruct r (hall2 r hr ▸ hnd)
    calc (r0 :: rest).map
          (fun r => (r0.map (·.1)).map
            (fun k => (k, (((r.find? (fun kv => kv.1 == k)).map (·.2)).getD Scalar.nan)))) =
        (r0 :: rest).map (fun r => r) := List.map_congr_left (fun r hr => hrow r hr)
      _ = r0 :: rest := List.map_id' _

/-- One field survives the save/load cycle up to tabular equivalence: a
scalar comes back identical, and tabular data comes back with identical
rows (as a dataframe again under the two dataframe keys, as its records
list elsewhere). -/
theorem fieldEquiv_roundtrip (k : String) (f : PField) (h : fieldUniform f = true) :
    fieldEquiv f (deserializeField k (serializeField f)) = true := by
  by_cases hk : (k == "final_dataframe" || k == "raw_dataframe") = true
  · cases f with
    | table rows =>
      have hid := pdFromRecords_id rows (by simpa [fieldUniform] using h)
      simp [serializeField, deserializeField, hk, fieldEquiv, hid]
    | records rows =>
      have hid := pdFromRecords_id rows (by simpa [fieldUniform] using h)
      simp [serializeField, deserializeField, hk, fieldEquiv, hid]
    | scalar v => simp [serializeField, deserializeField, hk, fieldEquiv]
  · cases f <;> simp [serializeField, deserializeField, hk, fieldEquiv]

/-- Element-wise equivalence of a result map with its save/load image. -/
theorem forall2_roundtrip (l : PResult) (h : ∀ kv ∈ l, fieldUniform kv.2 = true) :
    List.Forall₂ (fun a b => fieldEquiv a.2 b.2 = true) l
      (l.map (fun kv => (kv.1, deserializeField kv.1 (serializeField kv.2)))) := by
  induction l with
  | nil => exact List.Forall₂.nil
  | cons kv rest ih =>
    exact List.Forall₂.cons (fieldEquiv_roundtrip kv.1 kv.2 (h kv (by simp)))
      (ih (fun x hx => h x (by simp [hx])))

/-- Claim C8: `save_processing_result` followed by `load_processing_result`
with the same session id reproduces the result — the key list is
unchanged, every scalar field is reproduced exactly, and every tabular
field comes back as an equivalent row-for-row, column-for-column dataset
(as a dataframe again under the `final_dataframe`/`raw_dataframe` keys,
as its records list under any other key), provided each tabular field's
rows share one duplicate-free column list, which is what
`DataFrame.to_dict("records")` emits. -/
theorem claim_c8_session_round_trip (store : SessionStore) (sid : String) (result : PResult)
    (h : ∀ kv ∈ result, fieldUniform kv.2 = true) :
    ∃ result2,
      loadProcessingResult (saveProcessingResult store sid result) sid = some result2 ∧
      result2.map (·.1) = result.map (·.1) ∧
      List.Forall₂ (fun a b => fieldEquiv a.2 b.2 = true) result result2 := by
  refine ⟨result.map (fun kv => (kv.1, deserializeField kv.1 (serializeField kv.2))),
    ?_, ?_, forall2_roundtrip result h⟩
  · unfold loadProcessingResult
    rw [save_find store sid result]
    simp only [Option.map_some', List.map_map]
    rfl
  · simp

set_option maxRecDepth 100000 in
/-- Claim C8 witness: a concrete result with a scalar summary and a
two-row dataframe saved into an empty store and loaded back, with the
round-trip equivalences produced by the general theorem. -/
theorem claim_c8_witness :
    ∃ result2,
      loadProcessingResult
          (saveProcessingResult [] "s1"
            [("processing_summary", PField.scalar (Scalar.int 5)),
              ("final_dataframe", PField.table
                [[("a", Scalar.int 1), ("b", Scalar.str "x")],
                  [("a", Scalar.int 2), ("b", Scalar.nan)]])]) "s1" = some result2 ∧
      result2.map (·.1) =
        ([("processing_summary", PField.scalar (Scalar.int 5)),
          ("final_dataframe", PField.table
            [[("a", Scalar.int 1), ("b", Scalar.str "x")],
              [("a", Scalar.int 2), ("b", Scalar.nan)]])] : PResult).map (·.1) ∧
      List.Forall₂ (fun a b => fieldEquiv a.2 b.2 = true)
        [("processing_summary", PField.scalar (Scalar.int 5)),
          ("final_dataframe", PField.table
            [[("a", Scalar.int 1), ("b", Scalar.str "x")],
              [("a", Scalar.int 2), ("b", Scalar.nan)]])] result2 :=
  claim_c8_session_round_trip [] "s1"
    [("processing_summary", PField.scalar (Scalar.int 5)),
      ("final_dataframe", PField.table
        [[("a", Scalar.int 1), ("b", Scalar.str "x")],
          [("a", Scalar.int 2), ("b", Scalar.nan)]])]
    (of_decide_eq_true (by with_unfolding_all rfl))
